import Mathlib

/-!
# Verification of the chess-ai-benchmark rule engine and turn orchestrator

Shallow embedding of the repository's JavaScript sources:

* `ChessValidator` (move validation, check detection, terminal-state
  analysis, FEN serialization) from the chess validator engine module.
* The turn-orchestration logic of `useAIOrchestrator`
  (`executeTurn`, `forceMove`, the game loop guard) from
  `src/hooks/useAIOrchestrator.js`.

Modelling conventions:

* JavaScript strings are Lean `String`s; single characters are `Char`s.
* The mutable 8×8 board array is a `List (List (Option Piece))`.
  Out-of-range reads yield `none` (JS `undefined`, which is falsy in every
  read site of the source); out-of-range writes are no-ops (in JS they would
  throw, but no reachable code path performs one).
* The validator object's mutable fields are a `Validator` record; methods
  that mutate (`validateMove` via `applyMove`) return the new record.
* `String.prototype.split(' ')` is modelled by `jsSplit` (splitting on every
  single space, keeping empty components, exactly as in JS).
* `parseInt(s) || d` is modelled by a leading-decimal-digit parse with the
  falsy-fallback (`NaN` or `0` both yield the default) made explicit.
-/

namespace Chess

/-- A chess piece as stored on the JS board: `{ type, color }` where `type`
is a lowercase piece letter and `color` is the string `"white"` or
`"black"` (any `String` is representable, as in JS). -/
structure Piece where
  type : Char
  color : String
deriving DecidableEq, Repr

/-- The 8×8 board: `Array(8).fill(null).map(() => Array(8).fill(null))`
holding `Piece | null` cells. -/
abbrev Board := List (List (Option Piece))

/-- `FILES = ['a', ..., 'h']`. -/
def FILES : List Char := ['a', 'b', 'c', 'd', 'e', 'f', 'g', 'h']

/-- `RANKS = ['8', ..., '1']`. -/
def RANKS : List Char := ['8', '7', '6', '5', '4', '3', '2', '1']

/-- `FILES[i]` (always called in range in the source). -/
def fileChar (i : Nat) : Char := FILES.getD i '?'

/-- `RANKS[i]` (always called in range in the source). -/
def rankChar (i : Nat) : Char := RANKS.getD i '?'

/-- Two-character square name `${file}${rank}`. -/
def sqName (f r : Char) : String := String.mk [f, r]

/-- `board[r][c]` with `Nat` indices; out of range reads give `none`. -/
def getCellN (b : Board) (r c : Nat) : Option Piece :=
  (((b.get? r).getD []).get? c).getD none

/-- `board[r][c]` with possibly negative (JS number) indices. -/
def getCell (b : Board) (r c : Int) : Option Piece :=
  if 0 ≤ r ∧ 0 ≤ c then getCellN b r.toNat c.toNat else none

/-- `board[r][c] = v` (writes out of range are unreachable in the source). -/
def setCell (b : Board) (r c : Nat) (v : Option Piece) : Board :=
  b.set r (((b.get? r).getD []).set c v)

/-- A move object `{ from: [rank, file], to: [rank, file] }`. -/
structure Move where
  fromSq : Nat × Nat
  toSq : Nat × Nat
deriving DecidableEq, Repr

/-- `makeMoveOnBoard`: copy the board, put the moved piece on the target
square, then clear the source square (in this order, exactly as in the
source — so a move with `from = to` erases the piece). -/
def makeMoveOnBoard (b : Board) (m : Move) : Board :=
  let piece := getCellN b m.fromSq.1 m.fromSq.2
  let b1 := setCell b m.toSq.1 m.toSq.2 piece
  setCell b1 m.fromSq.1 m.fromSq.2 none

/-- Loop body of `isPathClear`: step from `(r, c)` towards `(tr, tc)` by
`(dr, dc)`, failing on an occupied intermediate square.  The fuel (8 in all
call sites, more than the board diameter) only guards Lean termination; the
source's `while` loop always terminates on the aligned inputs it is called
with. -/
def isPathClearAux (b : Board) (dr dc : Int) :
    Int → Int → Int → Int → Nat → Bool
  | _, _, _, _, 0 => true
  | r, c, tr, tc, fuel + 1 =>
    if r = tr ∧ c = tc then true
    else if (getCell b r c).isSome then false
    else isPathClearAux b dr dc (r + dr) (c + dc) tr tc fuel

/-- `isPathClear(fromSquare, toSquare)` over a given board. -/
def isPathClear (b : Board) (fromSq toSq : Nat × Nat) : Bool :=
  let dr := Int.sign ((toSq.1 : Int) - fromSq.1)
  let dc := Int.sign ((toSq.2 : Int) - fromSq.2)
  isPathClearAux b dr dc (fromSq.1 + dr) (fromSq.2 + dc) toSq.1 toSq.2 8

/-- `isPseudoLegalMove(piece, fromSquare, toSquare)`; reads the board and
the validator's current `enPassant` string (passed explicitly here). -/
def isPseudoLegalMove (b : Board) (ep : String) (p : Piece)
    (fromSq toSq : Nat × Nat) : Bool :=
  let dr : Int := (toSq.1 : Int) - fromSq.1
  let dc : Int := (toSq.2 : Int) - fromSq.2
  let absDr := dr.natAbs
  let absDc := dc.natAbs
  if p.type = 'p' then
    let direction : Int := if p.color = "white" then -1 else 1
    let startRank : Nat := if p.color = "white" then 6 else 1
    let target := getCellN b toSq.1 toSq.2
    let forward : Bool :=
      dc = 0 &&
        ((dr = direction && target.isNone) ||
         (dr = 2 * direction && fromSq.1 = startRank &&
          (getCell b ((fromSq.1 : Int) + direction) fromSq.2).isNone &&
          target.isNone))
    let capture : Bool :=
      absDc = 1 && dr = direction &&
        ((match target with
          | some q => q.color ≠ p.color
          | none => false) ||
         (ep ≠ "" && ep = sqName (fileChar toSq.2) (rankChar toSq.1)))
    forward || capture
  else if p.type = 'n' then
    (absDr = 2 && absDc = 1) || (absDr = 1 && absDc = 2)
  else if p.type = 'b' then
    absDr = absDc && isPathClear b fromSq toSq
  else if p.type = 'r' then
    (dr = 0 || dc = 0) && isPathClear b fromSq toSq
  else if p.type = 'q' then
    (absDr = absDc || dr = 0 || dc = 0) && isPathClear b fromSq toSq
  else if p.type = 'k' then
    absDr ≤ 1 && absDc ≤ 1
  else
    false

/-- `isSquareAttacked(square, byColor)` over a given board/en-passant. -/
def isSquareAttacked (b : Board) (ep : String) (sq : Nat × Nat)
    (byColor : String) : Bool :=
  (List.range 8).any fun r =>
    (List.range 8).any fun f =>
      match getCellN b r f with
      | none => false
      | some piece =>
        piece.color = byColor && isPseudoLegalMove b ep piece (r, f) sq

/-- `findKingOnBoard(color, board)`: first matching square in rank-major
scan order. -/
def findKingOnBoard (color : String) (b : Board) : Option (Nat × Nat) :=
  (List.range 8).findSome? fun rank =>
    (List.range 8).findSome? fun file =>
      match getCellN b rank file with
      | some p => if p.type = 'k' ∧ p.color = color then some (rank, file) else none
      | none => none

/-- `isKingInCheck(color, board)`: a missing king is never in check.  The
source temporarily swaps `this.board`; the en-passant string used by the
attack scan is the validator's current one, passed explicitly. -/
def isKingInCheck (ep : String) (color : String) (b : Board) : Bool :=
  match findKingOnBoard color b with
  | none => false
  | some kingPos =>
    isSquareAttacked b ep kingPos (if color = "white" then "black" else "white")

/-! ## String utilities modelling the JavaScript primitives used -/

/-- `String.prototype.split(' ')` at the character-list level: split on
every single space, keeping empty components. -/
def splitSp : List Char → List (List Char)
  | [] => [[]]
  | c :: cs =>
    if c = ' ' then [] :: splitSp cs
    else
      match splitSp cs with
      | [] => [[c]]
      | a :: as => (c :: a) :: as

/-- `fen.split(' ')` as a list of strings. -/
def jsSplit (s : String) : List String := (splitSp s.data).map String.mk

/-- `Array.prototype.join(' ')`. -/
def joinSp : List String → String
  | [] => ""
  | [x] => x
  | x :: y :: t => x ++ " " ++ joinSp (y :: t)

/-- Decimal digit character for `d < 10`. -/
def digitChar (d : Nat) : Char := Char.ofNat (48 + d)

/-- Decimal representation of a JS number that is a nonnegative integer
(`String(n)` / template-literal interpolation). -/
def natChars (n : Nat) : List Char :=
  if _h : n < 10 then [digitChar n]
  else natChars (n / 10) ++ [digitChar (n % 10)]
decreasing_by exact Nat.div_lt_self (by omega) (by omega)

/-- `String(n)` for a nonnegative integer. -/
def natToString (n : Nat) : String := String.mk (natChars n)

/-- Accumulating decimal read, stopping at the first non-digit
(the loop inside `parseInt`). -/
def digitsVal : List Char → Nat → Nat
  | [], acc => acc
  | c :: cs, acc =>
    if c.isDigit then digitsVal cs (acc * 10 + (c.toNat - 48)) else acc

/-- `parseInt(s)` restricted to the nonnegative integers appearing in FEN
fields: `none` models `NaN` (first character not a digit or empty
string). -/
def jsParseIntNat (s : String) : Option Nat :=
  match s.data with
  | [] => none
  | c :: _ => if c.isDigit then some (digitsVal s.data 0) else none

/-! ## FEN parsing and serialization -/

/-- One step of the `parseFen` character loop.  State: (board, rank, file). -/
def fenStep : Board × Nat × Nat → Char → Board × Nat × Nat
  | (b, rank, file), c =>
    if c = '/' then (b, rank + 1, 0)
    else if c.isDigit then (b, rank, file + (c.toNat - 48))
    else
      (setCell b rank file
        (some ⟨c.toLower, if c.toUpper = c then "white" else "black"⟩),
       rank, file + 1)

/-- The fresh all-empty board allocated at the top of `parseFen`. -/
def emptyBoard : Board := List.replicate 8 (List.replicate 8 none)

/-- `parseFen(fen)`: read the placement field (first space-separated part)
into a board. -/
def parseFen (fen : String) : Board :=
  let position := ((jsSplit fen).get? 0).getD ""
  (position.data.foldl fenStep (emptyBoard, 0, 0)).1

/-- FEN character for a piece (`type.toUpperCase()` for white, lowercased
for any other color). -/
def pieceChar (p : Piece) : Char :=
  if p.color = "white" then p.type.toUpper else p.type.toUpper.toLower

/-- Run-length encoding of one board rank (the inner `file` loop of
`boardToFen`, with its pending `empty` counter). -/
def rowFen : List (Option Piece) → Nat → List Char
  | [], em => if 0 < em then natChars em else []
  | none :: rest, em => rowFen rest (em + 1)
  | some p :: rest, em =>
    (if 0 < em then natChars em else []) ++ pieceChar p :: rowFen rest 0

/-- Join character lists with a separator (the `if (rank < 7) fen += '/'`
logic of `boardToFen`). -/
def joinChar (sep : Char) : List (List Char) → List Char
  | [] => []
  | [x] => x
  | x :: y :: t => x ++ sep :: joinChar sep (y :: t)

/-- The placement field produced by `boardToFen`. -/
def placementFen (b : Board) : String :=
  String.mk (joinChar '/' (b.map (fun row => rowFen row 0)))

/-- `boardToFen(board, turn, castling, enPassant, halfMoveClock,
fullMoveNumber)`. -/
def boardToFen (b : Board) (turn castling enPassant : String)
    (halfMoveClock fullMoveNumber : Nat) : String :=
  placementFen b ++ " " ++ turn ++ " " ++ castling ++ " " ++ enPassant ++
    " " ++ natToString halfMoveClock ++ " " ++ natToString fullMoveNumber

/-- The validator object's mutable state: `fen`, `board` and the fields
assigned by `parseFenState`. -/
structure Validator where
  fen : String
  board : Board
  turn : String
  castling : String
  enPassant : String
  halfMoveClock : Nat
  fullMoveNumber : Nat
deriving DecidableEq, Repr

/-- `parts[i] || dflt` for the string-valued FEN fields (`undefined` and
the empty string both fall back). -/
def fenField (fen : String) (i : Nat) (dflt : String) : String :=
  let x := ((jsSplit fen).get? i).getD ""
  if x = "" then dflt else x

/-- `parseInt(parts[i]) || dflt` (`NaN` and `0` both fall back). -/
def fenNumField (fen : String) (i : Nat) (dflt : Nat) : Nat :=
  match jsParseIntNat (((jsSplit fen).get? i).getD "") with
  | none => dflt
  | some n => if n = 0 then dflt else n

/-- The constructor: `this.fen = fen; this.board = this.parseFen(fen);
this.parseFenState(fen)`.  Note `parseInt(parts[4]) || 0` makes the
half-move clock default 0 and `parseInt(parts[5]) || 1` makes the
full-move number default 1. -/
def mkValidator (fen : String) : Validator :=
  { fen := fen
    board := parseFen fen
    turn := fenField fen 1 "w"
    castling := fenField fen 2 "KQkq"
    enPassant := fenField fen 3 "-"
    halfMoveClock := fenNumField fen 4 0
    fullMoveNumber := fenNumField fen 5 1 }

/-! ## SAN parsing

The source matches `^([KQRBN])?([a-h])?([1-8])?(x)?([a-h])([1-8])(=[QRBN])?$`
with the case-insensitive flag.  The matcher below reproduces the
backtracking semantics: optional single-character groups are tried
present-first, earlier groups having priority (depth-first greedy
backtracking), and the first assignment matching the whole string wins. -/

/-- `[KQRBN]` under the `i` flag. -/
def isPieceClass (c : Char) : Bool :=
  decide (c ∈ ['K', 'Q', 'R', 'B', 'N', 'k', 'q', 'r', 'b', 'n'])

/-- `[a-h]` under the `i` flag. -/
def isFileClass (c : Char) : Bool :=
  ('a' ≤ c && c ≤ 'h') || ('A' ≤ c && c ≤ 'H')

/-- `[1-8]`. -/
def isRankClass (c : Char) : Bool := '1' ≤ c && c ≤ '8'

/-- `x` under the `i` flag. -/
def isXClass (c : Char) : Bool := c = 'x' || c = 'X'

/-- `[QRBN]` under the `i` flag (the promotion letter). -/
def isPromClass (c : Char) : Bool :=
  decide (c ∈ ['Q', 'R', 'B', 'N', 'q', 'r', 'b', 'n'])

/-- Captured groups of the SAN regular expression. -/
structure SanGroups where
  g1 : Option Char
  g2 : Option Char
  g3 : Option Char
  g4 : Bool
  g5 : Char
  g6 : Char
  g7 : Option Char
deriving DecidableEq, Repr

/-- Consume one character for an optional single-character group. -/
def optStep (flag : Bool) (cls : Char → Bool) (cs : List Char) :
    Option (Option Char × List Char) :=
  if flag then
    match cs with
    | [] => none
    | c :: rest => if cls c then some (some c, rest) else none
  else some (none, cs)

/-- Consume one character for a required single-character group. -/
def reqStep (cls : Char → Bool) (cs : List Char) :
    Option (Char × List Char) :=
  match cs with
  | [] => none
  | c :: rest => if cls c then some (c, rest) else none

/-- Try one presence/absence assignment of the optional groups against the
whole input. -/
def matchShape (cs : List Char) (b1 b2 b3 b4 b7 : Bool) :
    Option SanGroups := do
  let (g1, cs) ← optStep b1 isPieceClass cs
  let (g2, cs) ← optStep b2 isFileClass cs
  let (g3, cs) ← optStep b3 isRankClass cs
  let (g4, cs) ← optStep b4 isXClass cs
  let (g5, cs) ← reqStep isFileClass cs
  let (g6, cs) ← reqStep isRankClass cs
  let (g7, cs) ←
    (if b7 then
      match cs with
      | '=' :: p :: rest => if isPromClass p then some (some p, rest) else none
      | _ => none
    else some (none, cs))
  if cs = [] then some ⟨g1, g2, g3, g4.isSome, g5, g6, g7⟩ else none

/-- All assignments of the optional groups, in backtracking preference
order (earlier group present-first). -/
def sanCombos : List (Bool × Bool × Bool × Bool × Bool) :=
  [true, false].flatMap fun b1 =>
    [true, false].flatMap fun b2 =>
      [true, false].flatMap fun b3 =>
        [true, false].flatMap fun b4 =>
          [true, false].map fun b7 => (b1, b2, b3, b4, b7)

/-- Anchored match of the SAN regular expression. -/
def sanMatch (cs : List Char) : Option SanGroups :=
  sanCombos.findSome? fun combo =>
    matchShape cs combo.1 combo.2.1 combo.2.2.1 combo.2.2.2.1 combo.2.2.2.2

/-- Result of `parseSan`: a castling object or a parsed standard move. -/
inductive ParsedSan where
  | castle (side : String)
  | san (piece : Char) (fromFile fromRank : Option Char) (isCapture : Bool)
      (toFile toRank : Char) (promotion : Option Char)
deriving DecidableEq, Repr

/-- `parseSan(san)`. -/
def parseSan (san : String) : Option ParsedSan :=
  if san = "O-O" then some (.castle "kingside")
  else if san = "O-O-O" then some (.castle "queenside")
  else
    match sanMatch san.data with
    | none => none
    | some g =>
      some (.san ((g.g1.getD 'p').toLower) g.g2 g.g3 g.g4 g.g5 g.g6
        (g.g7.map Char.toLower))

/-! ## Move finding, validation and application -/

/-- `findPieceMove(pieceType, fromFile, fromRank, toSquare)`: candidates in
rank-major scan order, each filtered by the disambiguation hints, the
pseudo-legality test and the king-safety test; then the source's
ambiguity resolution. -/
def findPieceMove (v : Validator) (pieceType : Char)
    (fromFile fromRank : Option Char) (toSq : Nat × Nat) : Option Move :=
  let candidates : List Move :=
    (List.range 8).flatMap fun rank =>
      (List.range 8).filterMap fun file =>
        match getCellN v.board rank file with
        | none => none
        | some piece =>
          if piece.type ≠ pieceType ∨ piece.color ≠ v.turn then none
          else if (match fromFile with
                   | some ff => fileChar file != ff
                   | none => false) then none
          else if (match fromRank with
                   | some fr => rankChar rank != fr
                   | none => false) then none
          else if isPseudoLegalMove v.board v.enPassant piece (rank, file) toSq
          then
            let testBoard := makeMoveOnBoard v.board ⟨(rank, file), toSq⟩
            if isKingInCheck v.enPassant v.turn testBoard then none
            else some ⟨(rank, file), toSq⟩
          else none
  match candidates with
  | [] => none
  | [m] => some m
  | m :: _ :: _ =>
    if fromFile.isSome && fromRank.isSome then
      candidates.find? fun mm =>
        (match fromFile with
         | some ff => fileChar mm.fromSq.2 == ff
         | none => false) &&
        (match fromRank with
         | some fr => rankChar mm.fromSq.1 == fr
         | none => false)
    else some m

/-- Remove the first occurrence of a character
(`String.prototype.replace` with a one-character pattern). -/
def removeFirst : List Char → Char → List Char
  | [], _ => []
  | x :: xs, c => if x = c then xs else x :: removeFirst xs c

/-- `updateCastlingRights(move)`.  Called by `applyMove` **after** the board
has been mutated, so it receives the post-move board: the source square has
just been cleared, the lookup yields `null` and the early return always
fires. -/
def updateCastlingRights (b : Board) (castling : String) (m : Move) : String :=
  match getCellN b m.fromSq.1 m.fromSq.2 with
  | none => castling
  | some piece =>
    let c1 :=
      if piece.type = 'k' then
        if piece.color = "white" then
          String.mk (castling.data.filter fun ch => ¬(ch = 'K' ∨ ch = 'Q'))
        else
          String.mk (castling.data.filter fun ch => ¬(ch = 'k' ∨ ch = 'q'))
      else castling
    if piece.type = 'r' ∨ piece.type = 'R' then
      let c2 := if m.fromSq = (7, 0) then String.mk (removeFirst c1.data 'Q') else c1
      let c3 := if m.fromSq = (7, 7) then String.mk (removeFirst c2.data 'K') else c2
      let c4 := if m.fromSq = (0, 0) then String.mk (removeFirst c3.data 'q') else c3
      if m.fromSq = (0, 7) then String.mk (removeFirst c4.data 'k') else c4
    else c1

/-- `updateEnPassant(move, parsed)` (the `parsed` argument is never read by
the source body).  Also called on the post-move board, so the source-square
lookup yields `null` and the result is always `'-'`. -/
def updateEnPassant (b : Board) (m : Move) : String :=
  match getCellN b m.fromSq.1 m.fromSq.2 with
  | some piece =>
    if piece.type = 'p' ∧ ((m.toSq.1 : Int) - m.fromSq.1).natAbs = 2 then
      sqName (fileChar m.toSq.2) (rankChar ((m.fromSq.1 + m.toSq.1) / 2))
    else "-"
  | none => "-"

/-- `applyMove(move, parsed)`: mutate the board, then update castling
rights, en-passant, turn, full-move number and the cached FEN.  The
half-move clock is never assigned by the source. -/
def applyMove (v : Validator) (m : Move) : Validator :=
  let board1 := makeMoveOnBoard v.board m
  let castling1 := updateCastlingRights board1 v.castling m
  let ep1 := updateEnPassant board1 m
  let turn1 := if v.turn = "white" then "black" else "white"
  let full1 := if turn1 = "white" then v.fullMoveNumber + 1 else v.fullMoveNumber
  { fen := boardToFen board1 turn1 castling1 ep1 v.halfMoveClock full1
    board := board1
    turn := turn1
    castling := castling1
    enPassant := ep1
    halfMoveClock := v.halfMoveClock
    fullMoveNumber := full1 }

/-- The result object of `validateMove` / `validateCastling`. -/
structure MoveResult where
  valid : Bool
  error : Option String
  move : Option Move
  capture : Bool
  castling : Bool
  side : Option String
  promotion : Option Char
deriving DecidableEq, Repr

/-- An invalid result `{ valid: false, error }`. -/
def invalidResult (msg : String) : MoveResult :=
  { valid := false, error := some msg, move := none, capture := false
    castling := false, side := none, promotion := none }

/-- `validateCastling(side)`.  Note that this branch checks the departure
square and the single intermediate square for attacks, but never the
king's destination square, and it returns without calling `applyMove`. -/
def validateCastling (v : Validator) (side : String) : MoveResult :=
  let rank : Nat := if v.turn = "white" then 7 else 0
  let kingFile : Nat := 4
  let castlingChar : Char :=
    if v.turn = "white" then (if side = "kingside" then 'K' else 'Q')
    else (if side = "kingside" then 'k' else 'q')
  if ¬(v.castling.data.contains castlingChar) then
    invalidResult ("Castling " ++ side ++ " not available")
  else if isKingInCheck v.enPassant v.turn v.board then
    invalidResult "Cannot castle while in check"
  else
    let kingDestFile : Nat := if side = "kingside" then 6 else 2
    let rookFile : Nat := if side = "kingside" then 7 else 0
    let lo := min kingFile rookFile
    let hi := max kingFile rookFile
    if (List.range' (lo + 1) (hi - (lo + 1))).any
        (fun f => (getCellN v.board rank f).isSome) then
      invalidResult "Castling path is blocked"
    else
      let move : Move := ⟨(rank, kingFile), (rank, kingDestFile)⟩
      let interFile : Nat := if side = "kingside" then kingFile + 1 else kingFile - 1
      let intermediateBoard :=
        makeMoveOnBoard v.board ⟨(rank, kingFile), (rank, interFile)⟩
      if isKingInCheck v.enPassant v.turn intermediateBoard then
        invalidResult "Cannot castle through check"
      else
        { valid := true, error := none, move := some move, capture := false
          castling := true, side := some side, promotion := none }

/-- `validateMove(san)`: returns the result object and the validator state
after the call (the source mutates `this` through `applyMove` exactly on
the successful non-castling path). -/
def validateMove (v : Validator) (san : String) : MoveResult × Validator :=
  match parseSan san with
  | none =>
    (invalidResult ("Invalid SAN notation: \"" ++ san ++
      "\". Expected format like e4, Nf3, O-O, exd5+"), v)
  | some (.castle side) => (validateCastling v side, v)
  | some (.san piece fromFile fromRank isCapture toFile toRank promotion) =>
    match FILES.findIdx? (· = toFile), RANKS.findIdx? (· = toRank) with
    | some toFileIndex, some toRankIndex =>
      let targetSquare := (toRankIndex, toFileIndex)
      let targetPiece := getCellN v.board toRankIndex toFileIndex
      if (match targetPiece with
          | some tp => tp.color == v.turn
          | none => false) then
        (invalidResult ("Cannot capture your own piece on " ++
          sqName toFile toRank), v)
      else if isCapture ∧ targetPiece = none ∧
          ¬(piece = 'p' ∧ v.enPassant = sqName toFile toRank) then
        (invalidResult ("Move indicates capture but " ++ sqName toFile toRank ++
          " is empty"), v)
      else
        match findPieceMove v piece fromFile fromRank targetSquare with
        | none =>
          (invalidResult ("No legal move for " ++ String.mk [piece] ++ " to " ++
            sqName toFile toRank ++ " found"), v)
        | some move =>
          let newBoard := makeMoveOnBoard v.board move
          if isKingInCheck v.enPassant v.turn newBoard then
            (invalidResult "Illegal move: would leave your king in check", v)
          else
            ({ valid := true, error := none, move := some move
               capture := targetPiece.isSome, castling := false, side := none
               promotion := promotion }, applyMove v move)
    | _, _ =>
      (invalidResult ("Invalid target square: " ++ sqName toFile toRank), v)

/-! ## SAN rendering and legal-move enumeration -/

/-- `toSan(move)` (uses the current board, i.e. the position before the
move is made). -/
def toSan (v : Validator) (m : Move) : String :=
  match getCellN v.board m.fromSq.1 m.fromSq.2 with
  | none => ""
  | some piece =>
    if piece.type = 'k' ∧ ((m.toSq.2 : Int) - m.fromSq.2).natAbs = 2 then
      if m.fromSq.2 < m.toSq.2 then "O-O" else "O-O-O"
    else
      let s1 := if piece.type ≠ 'p' then String.mk [piece.type.toUpper] else ""
      let s2 :=
        if piece.type = 'p' ∧ m.toSq.2 ≠ m.fromSq.2 then
          String.mk [fileChar m.fromSq.2]
        else ""
      let s3 := if (getCellN v.board m.toSq.1 m.toSq.2).isSome then "x" else ""
      let s4 := sqName (fileChar m.toSq.2) (rankChar m.toSq.1)
      let s5 :=
        if piece.type = 'p' ∧ (m.toSq.1 = 0 ∨ m.toSq.1 = 7) then "=Q" else ""
      s1 ++ s2 ++ s3 ++ s4 ++ s5

/-- `getLegalMoves()`: all king-safe pseudo-legal moves of the side to
move, rendered to SAN, in scan order. -/
def getLegalMoves (v : Validator) : List String :=
  (List.range 8).flatMap fun rank =>
    (List.range 8).flatMap fun file =>
      match getCellN v.board rank file with
      | none => []
      | some piece =>
        if piece.color ≠ v.turn then []
        else
          (List.range 8).flatMap fun tr =>
            (List.range 8).flatMap fun tf =>
              if isPseudoLegalMove v.board v.enPassant piece (rank, file) (tr, tf)
              then
                let testBoard := makeMoveOnBoard v.board ⟨(rank, file), (tr, tf)⟩
                if isKingInCheck v.enPassant v.turn testBoard then []
                else [toSan v ⟨(rank, file), (tr, tf)⟩]
              else []

/-! ## Terminal-state analysis -/

/-- The move scan shared (verbatim, duplicated in the source) by
`isCheckmate` and `isStalemate`: does the side to move have any
pseudo-legal move whose resulting board does not leave its king in
check? -/
def hasEscapingMove (v : Validator) : Bool :=
  (List.range 8).any fun rank =>
    (List.range 8).any fun file =>
      match getCellN v.board rank file with
      | none => false
      | some piece =>
        piece.color = v.turn &&
          (List.range 8).any fun tr =>
            (List.range 8).any fun tf =>
              isPseudoLegalMove v.board v.enPassant piece (rank, file) (tr, tf) &&
                !isKingInCheck v.enPassant v.turn
                  (makeMoveOnBoard v.board ⟨(rank, file), (tr, tf)⟩)

/-- `isCheckmate()`. -/
def isCheckmate (v : Validator) : Bool :=
  isKingInCheck v.enPassant v.turn v.board && !hasEscapingMove v

/-- `isStalemate()`. -/
def isStalemate (v : Validator) : Bool :=
  !isKingInCheck v.enPassant v.turn v.board && !hasEscapingMove v

/-- All pieces on the board with their coordinates, in scan order. -/
def boardPieces (b : Board) : List (Nat × Nat × Piece) :=
  (List.range 8).flatMap fun rank =>
    (List.range 8).filterMap fun file =>
      (getCellN b rank file).map fun p => (rank, file, p)

/-- `isInsufficientMaterial()`: per-color non-king piece counts and
bishop square-color counts, then the source's three draw conditions.
Note the second condition counts **any** single non-king piece (not only
minors) as insufficient. -/
def isInsufficientMaterial (v : Validator) : Bool :=
  let nonKings := (boardPieces v.board).filter fun t => t.2.2.type ≠ 'k'
  let count (color : String) : Nat :=
    ((nonKings.filter fun t => t.2.2.color = color)).length
  let bishopsOnDark (color : String) : Nat :=
    ((nonKings.filter fun t =>
      t.2.2.color = color ∧ t.2.2.type = 'b' ∧ (t.1 + t.2.1) % 2 = 1)).length
  let bishopsOnLight (color : String) : Nat :=
    ((nonKings.filter fun t =>
      t.2.2.color = color ∧ t.2.2.type = 'b' ∧ (t.1 + t.2.1) % 2 ≠ 1)).length
  let wc := count "white"
  let bc := count "black"
  let wd := bishopsOnDark "white"
  let wl := bishopsOnLight "white"
  let bd := bishopsOnDark "black"
  let bl := bishopsOnLight "black"
  if wc = 0 ∧ bc = 0 then true
  else if (wc = 1 ∧ bc = 0) ∨ (wc = 0 ∧ bc = 1) then true
  else if 0 < wc ∧ 0 < bc then
    if 0 < wd + wl ∧ 0 < bd + bl then
      let whiteOnlyDark := 0 < wd ∧ wl = 0
      let whiteOnlyLight := 0 < wl ∧ wd = 0
      let blackOnlyDark := 0 < bd ∧ bl = 0
      let blackOnlyLight := 0 < bl ∧ bd = 0
      if (whiteOnlyDark ∧ blackOnlyDark) ∨ (whiteOnlyLight ∧ blackOnlyLight)
      then true else false
    else false
  else false

/-- `fen.split(' ').slice(0, 3).join(' ')`: the repetition key used by
`isThreefoldRepetition` — board layout, side to move and castling rights
only. -/
def firstThreeFields (fen : String) : String := joinSp ((jsSplit fen).take 3)

/-- `isThreefoldRepetition(fenHistory)`. -/
def isThreefoldRepetition (v : Validator) (fenHistory : List String) : Bool :=
  let currentPos := firstThreeFields v.fen
  let positions := currentPos :: fenHistory.map firstThreeFields
  3 ≤ (positions.filter fun p => p = currentPos).length

/-- `isFiftyMoveRule()`. -/
def isFiftyMoveRule (v : Validator) : Bool := 100 ≤ v.halfMoveClock

/-- The object returned by `getGameState`: either
`{ gameOver: true, result, reason }` or `{ gameOver: false, inCheck }`. -/
inductive GameState where
  | over (result : String) (reason : String)
  | ongoing (inCheck : Bool)
deriving DecidableEq, Repr

/-- `gameOver` field of a `getGameState` result. -/
def GameState.gameOver : GameState → Bool
  | .over _ _ => true
  | .ongoing _ => false

/-- `getGameState(fenHistory = [])`. -/
def getGameState (v : Validator) (fenHistory : List String) : GameState :=
  if isCheckmate v then
    .over (if v.turn = "white" then "black" else "white") "checkmate"
  else if isStalemate v then .over "draw" "stalemate"
  else if isInsufficientMaterial v then .over "draw" "insufficient_material"
  else if isThreefoldRepetition v fenHistory then
    .over "draw" "threefold_repetition"
  else if isFiftyMoveRule v then .over "draw" "fifty_move_rule"
  else .ongoing (isKingInCheck v.enPassant v.turn v.board)

/-! ## Specification-side definitions (for refinement statements)

These follow the wording of the specification, for comparison with the
definitions above that are translated from the source. -/

/-- The specification's ordered table of terminal conditions: checkmate,
stalemate, insufficient material, threefold repetition, fifty-move rule —
each paired with the reported result (checkmate: a win for the side that
just moved, i.e. the side opposite to the side to move; all others: a
draw) and reason. -/
def terminalConditions (v : Validator) (fenHistory : List String) :
    List (Bool × String × String) :=
  [(isCheckmate v, if v.turn = "white" then "black" else "white", "checkmate"),
   (isStalemate v, "draw", "stalemate"),
   (isInsufficientMaterial v, "draw", "insufficient_material"),
   (isThreefoldRepetition v fenHistory, "draw", "threefold_repetition"),
   (isFiftyMoveRule v, "draw", "fifty_move_rule")]

/-- The specification's evaluation order: the first satisfied condition in
the table wins; if none is satisfied the game is not over. -/
def specGameState (v : Validator) (fenHistory : List String) : GameState :=
  match (terminalConditions v fenHistory).find? (fun t => t.1) with
  | some t => .over t.2.1 t.2.2
  | none => .ongoing (isKingInCheck v.enPassant v.turn v.board)

/-- The first `k` space-separated fields of a FEN string, as a list (the
specification's position tuple is the first four: board layout, side to
move, castling rights, en-passant target). -/
def fenFields (k : Nat) (fen : String) : List String := (jsSplit fen).take k

/-- Well-formed piece: a real piece letter and a real color string — true
of every piece a legal position can contain. -/
def wfPiece (p : Piece) : Bool :=
  decide (p.type ∈ ['p', 'n', 'b', 'r', 'q', 'k']) &&
    (p.color == "white" || p.color == "black")

/-- Well-formed row of cells. -/
def wfCells (cells : List (Option Piece)) : Bool :=
  cells.all fun cell =>
    match cell with
    | none => true
    | some p => wfPiece p

/-- Well-formed board: 8 ranks of 8 well-formed cells. -/
def wfBoard (b : Board) : Bool :=
  b.length == 8 && b.all fun row => row.length == 8 && wfCells row

/-- A well-formed textual FEN field: nonempty and containing no space —
true of every field of every legal position (the "none" sentinels are
`'-'`). -/
def fenFieldOk (s : String) : Bool := s ≠ "" && s.data.all (· ≠ ' ')

/-- A small concrete position used to exercise the serializer: black
rook on a8, white king on h1. -/
def sampleBoard : Board :=
  (some ⟨'r', "black"⟩ :: List.replicate 7 none) ::
    (List.replicate 6 (List.replicate 8 none) ++
      [List.replicate 7 none ++ [some ⟨'k', "white"⟩]])

/-- Writing a sequence of cells into a row starting at a position,
skipping the empty ones (the effect of the `parseFen` character loop on
one rank: pieces are written, empty squares are only skipped over). -/
def rowWrite : List (Option Piece) → Nat → List (Option Piece) →
    List (Option Piece)
  | cur, _, [] => cur
  | cur, pos, none :: cs => rowWrite cur (pos + 1) cs
  | cur, pos, some p :: cs => rowWrite (cur.set pos (some p)) (pos + 1) cs

end Chess

namespace Orch

open Chess

/-!
## Turn orchestrator (`useAIOrchestrator.js`)

The hook's store-backed state is flattened into one record.  The external
world of one `executeTurn` call — whether `createAdapter` succeeds and the
move token extracted from each of the (at most two) agent responses — is a
`TurnInput`.  `executeTurn` returns the successor state together with the
number of agent requests (`adapter.complete` calls) issued.  Logging is
abstracted to a counter of `LOG_TYPES.ERROR` entries.
-/

/-- The orchestrator-visible state: game-state store fields used by the
hook (`fen`, `turn`, `moveNumber`, `status`, `gameResult`) plus the hook's
own `hallucinationRetries`, `directorOverride` and `directorPrompt`. -/
structure OrchState where
  fen : String
  turn : String
  moveNumber : Nat
  status : String
  gameResult : Option GameState
  retriesP1 : Nat
  retriesP2 : Nat
  directorOverride : Option (String × String)
  directorPrompt : Option String
  errorLogs : Nat
deriving DecidableEq, Repr

/-- The environment of one `executeTurn` call: whether
`providerRegistry.createAdapter` succeeds, and the `MOVE:` token parsed
from the first response and from the corrective retry response (`none`
models an extraction failure, which throws). -/
structure TurnInput where
  adapterOk : Bool
  firstMove : Option String
  retryMove : Option String
deriving DecidableEq, Repr

/-- `hallucinationRetries[playerId]` (`isPlayer1 = playerId === 'player1'`,
anything else is player 2). -/
def getRetries (s : OrchState) (playerId : String) : Nat :=
  if playerId = "player1" then s.retriesP1 else s.retriesP2

/-- `setHallucinationRetries` for one player. -/
def setRetries (s : OrchState) (playerId : String) (n : Nat) : OrchState :=
  if playerId = "player1" then { s with retriesP1 := n }
  else { s with retriesP2 := n }

/-- `advanceTurn()` of the game-state store: flip the side to move and bump
the move number when the new side is white. -/
def advanceTurn (s : OrchState) : OrchState :=
  let nextTurn := if s.turn = "white" then "black" else "white"
  { s with
    turn := nextTurn
    moveNumber := if nextTurn = "white" then s.moveNumber + 1 else s.moveNumber }

/-- The `catch` block of `executeTurn`: log the error and set status
`GAME_STATUS.ERROR` — but only when `maxHallucinationRetries > 0`. -/
def catchBlock (maxRetries : Nat) (s : OrchState) : OrchState :=
  { s with
    errorLogs := s.errorLogs + 1
    status := if 0 < maxRetries then "error" else s.status }

/-- The successful-move tail shared by the first-attempt and retry paths:
`setGameState({ fen, turn })` from the validator, then `advanceTurn()`. -/
def applyToStore (s : OrchState) (v : Validator) : OrchState :=
  advanceTurn { s with fen := v.fen, turn := v.turn }

/-- The agent-request part of `executeTurn` (everything after the director
override branch): first `adapter.complete` call, validation, and on
failure either the escalation branch or the corrective retry inside the
same `try` block. -/
def executeTurnLLM (maxRetries : Nat) (s : OrchState) (v : Validator)
    (playerId : String) (inp : TurnInput) : OrchState × Nat :=
  match inp.firstMove with
  | none => (catchBlock maxRetries s, 1)
  | some mv =>
    let (res, v1) := validateMove v mv
    if res.valid then
      (applyToStore (setRetries s playerId 0) v1, 1)
    else
      let currentRetries := getRetries s playerId
      if maxRetries ≤ currentRetries then
        ({ s with errorLogs := s.errorLogs + 1, status := "waiting_director" }, 1)
      else
        match inp.retryMove with
        | none => (catchBlock maxRetries s, 2)
        | some mv2 =>
          let (res2, v2) := validateMove v1 mv2
          if res2.valid then
            (applyToStore (setRetries s playerId (currentRetries + 1)) v2, 2)
          else (catchBlock maxRetries s, 2)

/-- `executeTurn(playerId)`: terminal-state pre-check, adapter creation,
director override branch, prompt interception, then the agent request
flow.  Returns the successor state and the number of agent requests
issued. -/
def executeTurn (maxRetries : Nat) (s : OrchState) (playerId : String)
    (inp : TurnInput) : OrchState × Nat :=
  let v := mkValidator s.fen
  let gs := getGameState v []
  if gs.gameOver then
    ({ s with status := "game_over", gameResult := some gs }, 0)
  else if ¬inp.adapterOk then
    ({ s with errorLogs := s.errorLogs + 1, status := "error" }, 0)
  else
    match s.directorOverride with
    | some (overrideMove, overridePlayer) =>
      if overridePlayer = playerId then
        let s1 := { s with directorOverride := none }
        let (res, v1) := validateMove v overrideMove
        if res.valid then (applyToStore s1 v1, 0)
        else ({ s1 with errorLogs := s1.errorLogs + 1 }, 0)
      else
        executeTurnLLM maxRetries { s with directorPrompt := none } v playerId inp
    | none =>
      executeTurnLLM maxRetries { s with directorPrompt := none } v playerId inp

/-- One `gameLoop` iteration: only a state in `GAME_STATUS.RUNNING`
executes a turn (and hence issues agent requests); the player is chosen
from the side to move. -/
def gameLoopStep (maxRetries : Nat) (s : OrchState) (inp : TurnInput) :
    OrchState × Nat :=
  if s.status ≠ "running" then (s, 0)
  else
    executeTurn maxRetries s
      (if s.turn = "white" then "player1" else "player2") inp

/-- `forceMove(move, playerId)`: record the director override, and when
the game is paused and the recorded active player matches, execute the
turn immediately. -/
def forceMove (maxRetries : Nat) (s : OrchState) (mv playerId activePlayer : String)
    (inp : TurnInput) : OrchState :=
  let s1 := { s with directorOverride := some (mv, playerId) }
  if s.status = "paused" ∧ activePlayer = playerId then
    (executeTurn maxRetries s1 playerId inp).1
  else s1

end Orch

/-! # Theorems -/

open Chess Orch

/-- Helper: a validator returned by `applyMove` has the opposite-or-white
turn string, which always differs from the previous turn string. -/
theorem applyMove_turn_ne (v : Validator) (m : Move) :
    (applyMove v m).turn ≠ v.turn := by
  show (if v.turn = "white" then "black" else "white") ≠ v.turn
  by_cases h : v.turn = "white" <;> simp [h]
  intro hw
  exact h hw.symm

/-- Helper: every `validateCastling` result has `castling = valid` (both
`false` on each rejection, both `true` on acceptance). -/
theorem validateCastling_castling_eq_valid (v : Validator) (side : String) :
    (validateCastling v side).castling = (validateCastling v side).valid := by
  unfold validateCastling
  dsimp only
  repeat' split
  all_goals rfl

/-- Helper: every `validateMove` call either rejects and returns the
validator unchanged, returns a castling verdict with the validator
unchanged, or accepts a non-castling move and returns the validator
advanced by `applyMove`. -/
theorem validateMove_shape (v : Validator) (san : String) :
    (∃ msg, validateMove v san = (invalidResult msg, v)) ∨
    (∃ side, validateMove v san = (validateCastling v side, v)) ∨
    (∃ m promo tp,
      validateMove v san =
        ({ valid := true, error := none, move := some m, capture := tp,
           castling := false, side := none, promotion := promo },
         applyMove v m)) := by
  unfold validateMove
  dsimp only
  repeat' split
  all_goals
    first
      | exact Or.inl ⟨_, rfl⟩
      | exact Or.inr (Or.inl ⟨_, rfl⟩)
      | exact Or.inr (Or.inr ⟨_, _, _, rfl⟩)

/-- C10 — Accepted castling is never applied: when `validateMove` accepts
a move through the castling branch the validator's state (board, FEN,
turn, castling rights — the whole record) is left unchanged, while every
other accepted move advances the state through `applyMove` (in particular
the stored turn changes). -/
theorem accepted_castling_leaves_validator_unchanged (v : Validator)
    (san : String) (hv : (validateMove v san).1.valid = true) :
    ((validateMove v san).1.castling = true → (validateMove v san).2 = v) ∧
    ((validateMove v san).1.castling = false →
      ∃ m, (validateMove v san).1.move = some m ∧
        (validateMove v san).2 = applyMove v m ∧
        (validateMove v san).2.turn ≠ v.turn) := by
  rcases validateMove_shape v san with ⟨msg, heq⟩ | ⟨side, heq⟩ |
    ⟨m, promo, tp, heq⟩
  · rw [heq] at hv
    simp [invalidResult] at hv
  · constructor
    · intro _
      rw [heq]
    · intro hcf
      rw [heq] at hv hcf
      rw [validateCastling_castling_eq_valid] at hcf
      rw [hv] at hcf
      cases hcf
  · constructor
    · intro hct
      rw [heq] at hct
      cases hct
    · intro _
      refine ⟨m, ?_, ?_, ?_⟩
      · rw [heq]
      · rw [heq]
      · rw [heq]
        exact applyMove_turn_ne v m

/-- C10 witness: from a position where white may castle kingside, the
accepted `O-O` leaves the validator exactly as constructed. -/
theorem accepted_castling_unchanged_witness :
    (validateMove (mkValidator "4k3/8/8/8/8/8/8/4K2R white K - 0 1")
        "O-O").2 =
      mkValidator "4k3/8/8/8/8/8/8/4K2R white K - 0 1" :=
  (accepted_castling_leaves_validator_unchanged
    (mkValidator "4k3/8/8/8/8/8/8/4K2R white K - 0 1") "O-O"
    (by decide)).1 (by decide)

/-- C1 — refuted on the code (code bug): from
`6r1/8/8/8/8/8/8/4K2R white K - 0 1` the castling branch accepts `O-O`
(the black rook on g8 attacks the king's destination g1, which
`validateCastling` never examines), yet applying the returned king move
e1→g1 yields a board on which white's king is in check.  The spec's
king-safety closure fails for accepted castling moves. -/
theorem castling_into_check_accepted :
    (validateMove (mkValidator "6r1/8/8/8/8/8/8/4K2R white K - 0 1")
        "O-O").1.valid = true ∧
    (validateMove (mkValidator "6r1/8/8/8/8/8/8/4K2R white K - 0 1")
        "O-O").1.castling = true ∧
    (validateMove (mkValidator "6r1/8/8/8/8/8/8/4K2R white K - 0 1")
        "O-O").1.move = some ⟨(7, 4), (7, 6)⟩ ∧
    isKingInCheck
      (mkValidator "6r1/8/8/8/8/8/8/4K2R white K - 0 1").enPassant "white"
      (makeMoveOnBoard
        (mkValidator "6r1/8/8/8/8/8/8/4K2R white K - 0 1").board
        ⟨(7, 4), (7, 6)⟩) = true := by
  decide

/-- C3 — refuted on the code (code bug): `applyMove` never assigns the
half-move clock.  From the standard position (side to move spelled
`white`, clock 0) the knight move `Nf3` — neither a pawn move nor a
capture — is accepted and the resulting clock is still 0, where the spec
requires 0 + 1. -/
theorem halfmove_clock_never_updated :
    (validateMove
        (mkValidator
          "rnbqkbnr/pppppppp/8/8/8/8/PPPPPPPP/RNBQKBNR white KQkq - 0 1")
        "Nf3").1.valid = true ∧
    (validateMove
        (mkValidator
          "rnbqkbnr/pppppppp/8/8/8/8/PPPPPPPP/RNBQKBNR white KQkq - 0 1")
        "Nf3").1.capture = false ∧
    (mkValidator
      "rnbqkbnr/pppppppp/8/8/8/8/PPPPPPPP/RNBQKBNR white KQkq - 0 1").halfMoveClock
        = 0 ∧
    (validateMove
        (mkValidator
          "rnbqkbnr/pppppppp/8/8/8/8/PPPPPPPP/RNBQKBNR white KQkq - 0 1")
        "Nf3").2.halfMoveClock = 0 := by
  decide

/-- C4 — refuted on the code (code bug): `updateEnPassant` runs after the
board mutation and reads the already-vacated source square, so its pawn
test never fires.  The accepted two-square advance `e4` (e2→e4) leaves
the en-passant target `'-'`, where the spec requires `e3`. -/
theorem en_passant_never_set :
    (validateMove
        (mkValidator
          "rnbqkbnr/pppppppp/8/8/8/8/PPPPPPPP/RNBQKBNR white KQkq - 0 1")
        "e4").1.valid = true ∧
    (validateMove
        (mkValidator
          "rnbqkbnr/pppppppp/8/8/8/8/PPPPPPPP/RNBQKBNR white KQkq - 0 1")
        "e4").1.move = some ⟨(6, 4), (4, 4)⟩ ∧
    (validateMove
        (mkValidator
          "rnbqkbnr/pppppppp/8/8/8/8/PPPPPPPP/RNBQKBNR white KQkq - 0 1")
        "e4").2.enPassant = "-" := by
  decide

/-- C5 — Terminal-state precedence: `getGameState` reports exactly the
first satisfied condition of the specification's ordered table (checkmate,
stalemate, insufficient material, threefold repetition, fifty-move rule);
checkmate yields a win for the side that just moved (the side opposite the
side to move), the other four conditions yield a draw; with no condition
satisfied the game continues. -/
theorem getGameState_first_satisfied_condition (v : Validator)
    (hist : List String) : getGameState v hist = specGameState v hist := by
  unfold getGameState specGameState terminalConditions
  cases hc : isCheckmate v <;>
    cases hs : isStalemate v <;>
      cases hi : isInsufficientMaterial v <;>
        cases h3 : isThreefoldRepetition v hist <;>
          cases h5 : isFiftyMoveRule v <;>
            simp [List.find?, hc, hs, hi, h3, h5]

/-- Helper: `getRetries` is untouched by the store-apply tail of a
successful move. -/
theorem getRetries_applyToStore (s : OrchState) (v : Validator)
    (pid : String) : getRetries (applyToStore s v) pid = getRetries s pid := by
  unfold applyToStore advanceTurn getRetries
  by_cases h : pid = "player1" <;> simp [h]

/-- Helper: `getRetries` after `setRetries` for the same player. -/
theorem getRetries_setRetries (s : OrchState) (pid : String) (n : Nat) :
    getRetries (setRetries s pid n) pid = n := by
  unfold setRetries getRetries
  by_cases h : pid = "player1" <;> simp [h]

/-- Helper: the `catch` block does not touch the retry counters. -/
theorem getRetries_catchBlock (N : Nat) (s : OrchState) (pid : String) :
    getRetries (catchBlock N s) pid = getRetries s pid := by
  unfold catchBlock getRetries
  by_cases h : pid = "player1" <;> simp [h]

/-- Helper: `getRetries` ignores the `directorPrompt` field. -/
theorem getRetries_clearPrompt (s : OrchState) (pid : String) :
    getRetries { s with directorPrompt := none } pid = getRetries s pid := by
  unfold getRetries
  by_cases h : pid = "player1" <;> simp [h]

/-- Helper: the retry counter selected for `player1`. -/
theorem getRetries_p1 (s : OrchState) : getRetries s "player1" = s.retriesP1 := rfl

/-- Helper: the retry counter selected for any other player id. -/
theorem getRetries_ne (s : OrchState) (pid : String) (h : pid ≠ "player1") :
    getRetries s pid = s.retriesP2 := by
  unfold getRetries
  rw [if_neg h]

/-- C2 — counterexample: a state with counter 0 and ceiling 3 whose agent
produces an invalid move and an invalid corrective retry ends in status
`error` (the thrown `Retry also failed` lands in the catch block), not in
`waiting_director` as the claim requires. -/
theorem invalid_retry_yields_error_status :
    (validateMove (mkValidator "k6r/8/8/8/8/8/8/K6R white - - 0 1")
        "e4").1.valid = false ∧
    (executeTurn 3
        { fen := "k6r/8/8/8/8/8/8/K6R white - - 0 1", turn := "white",
          moveNumber := 1, status := "running", gameResult := none,
          retriesP1 := 0, retriesP2 := 0, directorOverride := none,
          directorPrompt := none, errorLogs := 0 }
        "player1" ⟨true, some "e4", some "e4"⟩).1.status = "error" ∧
    ("error" : String) ≠ "waiting_director" := by
  decide

/-- C2 (amended) — Hallucination escalation as implemented: on an invalid
move, if the agent's counter has already reached the ceiling the status
becomes `waiting_director`; if instead the corrective re-request fails
(no extractable move, or an invalid move) the status becomes `error`.
In either case the automatic loop is halted: a `gameLoop` iteration on a
state whose status is not `running` does nothing and issues no agent
request. -/
theorem hallucination_escalation_statuses (N : Nat) (s : OrchState)
    (pid mv : String) (inp : TurnInput)
    (hg : (getGameState (mkValidator s.fen) []).gameOver = false)
    (ha : inp.adapterOk = true)
    (ho : s.directorOverride = none)
    (hm : inp.firstMove = some mv)
    (hv : (validateMove (mkValidator s.fen) mv).1.valid = false) :
    (N ≤ getRetries s pid →
      (executeTurn N s pid inp).1.status = "waiting_director") ∧
    (getRetries s pid < N → inp.retryMove = none →
      (executeTurn N s pid inp).1.status = "error") ∧
    (∀ mv2, getRetries s pid < N → inp.retryMove = some mv2 →
      (validateMove (validateMove (mkValidator s.fen) mv).2 mv2).1.valid
          = false →
      (executeTurn N s pid inp).1.status = "error") ∧
    (∀ t u, t.status ≠ "running" → gameLoopStep N t u = (t, 0)) := by
  rcases hq : validateMove (mkValidator s.fen) mv with ⟨r1, w1⟩
  rw [hq] at hv
  simp only at hv
  refine ⟨?_, ?_, ?_, ?_⟩
  · intro hle
    simp only [executeTurn, executeTurnLLM, hg, ha, ho, hm, hq]
    by_cases hp : pid = "player1"
    · subst hp
      rw [getRetries_p1] at hle
      simp [getRetries_p1, hle, hv]
    · rw [getRetries_ne _ _ hp] at hle
      simp [getRetries_ne _ _ hp, hle, hv]
  · intro hlt hr
    have hpos : 0 < N := Nat.lt_of_le_of_lt (Nat.zero_le _) hlt
    simp only [executeTurn, executeTurnLLM, hg, ha, ho, hm, hq, hr]
    by_cases hp : pid = "player1"
    · subst hp
      rw [getRetries_p1] at hlt
      simp [getRetries_p1, Nat.not_le.mpr hlt, hv, catchBlock, hpos]
    · rw [getRetries_ne _ _ hp] at hlt
      simp [getRetries_ne _ _ hp, Nat.not_le.mpr hlt, hv, catchBlock, hpos]
  · intro mv2 hlt hr hv2
    have hpos : 0 < N := Nat.lt_of_le_of_lt (Nat.zero_le _) hlt
    rcases hq2 : validateMove w1 mv2 with ⟨r2, w2⟩
    rw [hq2] at hv2
    simp only at hv2
    simp only [executeTurn, executeTurnLLM, hg, ha, ho, hm, hq, hr, hq2]
    by_cases hp : pid = "player1"
    · subst hp
      rw [getRetries_p1] at hlt
      simp [getRetries_p1, Nat.not_le.mpr hlt, hv, hv2, catchBlock, hpos]
    · rw [getRetries_ne _ _ hp] at hlt
      simp [getRetries_ne _ _ hp, Nat.not_le.mpr hlt, hv, hv2, catchBlock, hpos]
  · intro t u h
    unfold gameLoopStep
    simp [h]

/-- C2 witness: concrete runs of the amended escalation statement — a
counter at the ceiling escalates to `waiting_director`; a failed
corrective retry yields `error`; a non-`running` state performs no loop
work. -/
theorem hallucination_escalation_witness :
    (executeTurn 2
        { fen := "k6r/8/8/8/8/8/8/K6R white - - 0 1", turn := "white",
          moveNumber := 1, status := "running", gameResult := none,
          retriesP1 := 2, retriesP2 := 0, directorOverride := none,
          directorPrompt := none, errorLogs := 0 }
        "player1" ⟨true, some "e4", none⟩).1.status = "waiting_director" ∧
    (executeTurn 2
        { fen := "k6r/8/8/8/8/8/8/K6R white - - 0 1", turn := "white",
          moveNumber := 1, status := "running", gameResult := none,
          retriesP1 := 1, retriesP2 := 0, directorOverride := none,
          directorPrompt := none, errorLogs := 0 }
        "player1" ⟨true, some "e4", none⟩).1.status = "error" ∧
    gameLoopStep 2
        { fen := "k6r/8/8/8/8/8/8/K6R white - - 0 1", turn := "white",
          moveNumber := 1, status := "waiting_director", gameResult := none,
          retriesP1 := 2, retriesP2 := 0, directorOverride := none,
          directorPrompt := none, errorLogs := 0 } ⟨true, some "e4", none⟩ =
      ({ fen := "k6r/8/8/8/8/8/8/K6R white - - 0 1", turn := "white",
         moveNumber := 1, status := "waiting_director", gameResult := none,
         retriesP1 := 2, retriesP2 := 0, directorOverride := none,
         directorPrompt := none, errorLogs := 0 }, 0) :=
  ⟨(hallucination_escalation_statuses 2
      { fen := "k6r/8/8/8/8/8/8/K6R white - - 0 1", turn := "white",
        moveNumber := 1, status := "running", gameResult := none,
        retriesP1 := 2, retriesP2 := 0, directorOverride := none,
        directorPrompt := none, errorLogs := 0 }
      "player1" "e4" ⟨true, some "e4", none⟩
      (by decide) rfl rfl rfl (by decide)).1 (by decide),
   (hallucination_escalation_statuses 2
      { fen := "k6r/8/8/8/8/8/8/K6R white - - 0 1", turn := "white",
        moveNumber := 1, status := "running", gameResult := none,
        retriesP1 := 1, retriesP2 := 0, directorOverride := none,
        directorPrompt := none, errorLogs := 0 }
      "player1" "e4" ⟨true, some "e4", none⟩
      (by decide) rfl rfl rfl (by decide)).2.1 (by decide) rfl,
   (hallucination_escalation_statuses 2
      { fen := "k6r/8/8/8/8/8/8/K6R white - - 0 1", turn := "white",
        moveNumber := 1, status := "running", gameResult := none,
        retriesP1 := 2, retriesP2 := 0, directorOverride := none,
        directorPrompt := none, errorLogs := 0 }
      "player1" "e4" ⟨true, some "e4", none⟩
      (by decide) rfl rfl rfl (by decide)).2.2.2
      { fen := "k6r/8/8/8/8/8/8/K6R white - - 0 1", turn := "white",
        moveNumber := 1, status := "waiting_director", gameResult := none,
        retriesP1 := 2, retriesP2 := 0, directorOverride := none,
        directorPrompt := none, errorLogs := 0 }
      ⟨true, some "e4", none⟩ (by decide)⟩

/-- C7 — counterexample: an invalid first attempt (`e4`, no pawn on the
board) followed by a successfully validated corrective retry (`Rh2`)
leaves that agent's counter at 1, not reset to 0 as the claim requires
for any successfully validated move. -/
theorem successful_retry_does_not_reset_counter :
    (validateMove (mkValidator "k6r/8/8/8/8/8/8/K6R white - - 0 1")
        "e4").1.valid = false ∧
    (validateMove (mkValidator "k6r/8/8/8/8/8/8/K6R white - - 0 1")
        "Rh2").1.valid = true ∧
    (executeTurn 3
        { fen := "k6r/8/8/8/8/8/8/K6R white - - 0 1", turn := "white",
          moveNumber := 1, status := "running", gameResult := none,
          retriesP1 := 0, retriesP2 := 0, directorOverride := none,
          directorPrompt := none, errorLogs := 0 }
        "player1" ⟨true, some "e4", some "Rh2"⟩).1.retriesP1 = 1 := by
  decide

/-- C7 (amended) — Counter discipline as implemented: the counter is reset
to 0 only when the **first** attempt validates; a successfully validated
corrective retry *increments* it by one (this is also the only place it is
incremented — it is left unchanged on ceiling escalation and on a failed
retry). -/
theorem hallucination_counter_behavior (N : Nat) (s : OrchState)
    (pid mv : String) (inp : TurnInput)
    (hg : (getGameState (mkValidator s.fen) []).gameOver = false)
    (ha : inp.adapterOk = true)
    (ho : s.directorOverride = none)
    (hm : inp.firstMove = some mv) :
    ((validateMove (mkValidator s.fen) mv).1.valid = true →
      getRetries (executeTurn N s pid inp).1 pid = 0) ∧
    ((validateMove (mkValidator s.fen) mv).1.valid = false →
      (N ≤ getRetries s pid →
        getRetries (executeTurn N s pid inp).1 pid = getRetries s pid) ∧
      (getRetries s pid < N → inp.retryMove = none →
        getRetries (executeTurn N s pid inp).1 pid = getRetries s pid) ∧
      (∀ mv2, getRetries s pid < N → inp.retryMove = some mv2 →
        ((validateMove (validateMove (mkValidator s.fen) mv).2 mv2).1.valid
            = true →
          getRetries (executeTurn N s pid inp).1 pid = getRetries s pid + 1) ∧
        ((validateMove (validateMove (mkValidator s.fen) mv).2 mv2).1.valid
            = false →
          getRetries (executeTurn N s pid inp).1 pid = getRetries s pid))) := by
  rcases hq : validateMove (mkValidator s.fen) mv with ⟨r1, w1⟩
  constructor
  · intro hv
    simp only at hv
    simp only [executeTurn, executeTurnLLM, hg, ha, ho, hm, hq]
    by_cases hp : pid = "player1" <;>
      simp [hp, hv, applyToStore, advanceTurn, setRetries, getRetries]
  · intro hv
    simp only at hv
    refine ⟨?_, ?_, ?_⟩
    · intro hle
      simp only [executeTurn, executeTurnLLM, hg, ha, ho, hm, hq]
      by_cases hp : pid = "player1"
      · subst hp
        rw [getRetries_p1] at hle
        simp [getRetries_p1, hle, hv]
      · rw [getRetries_ne _ _ hp] at hle
        simp [getRetries_ne _ _ hp, hle, hv]
    · intro hlt hr
      simp only [executeTurn, executeTurnLLM, hg, ha, ho, hm, hq, hr]
      by_cases hp : pid = "player1"
      · subst hp
        rw [getRetries_p1] at hlt
        simp [getRetries_p1, Nat.not_le.mpr hlt, hv, catchBlock]
      · rw [getRetries_ne _ _ hp] at hlt
        simp [getRetries_ne _ _ hp, Nat.not_le.mpr hlt, hv, catchBlock]
    · intro mv2 hlt hr
      rcases hq2 : validateMove w1 mv2 with ⟨r2, w2⟩
      constructor
      · intro hv2
        simp only at hv2
        simp only [executeTurn, executeTurnLLM, hg, ha, ho, hm, hq, hr, hq2]
        by_cases hp : pid = "player1"
        · subst hp
          rw [getRetries_p1] at hlt
          simp [getRetries_p1, Nat.not_le.mpr hlt, hv, hv2, applyToStore,
            advanceTurn, setRetries, getRetries]
        · rw [getRetries_ne _ _ hp] at hlt
          simp [getRetries_ne _ _ hp, Nat.not_le.mpr hlt, hv, hv2,
            applyToStore, advanceTurn, setRetries, getRetries, hp]
      · intro hv2
        simp only at hv2
        simp only [executeTurn, executeTurnLLM, hg, ha, ho, hm, hq, hr, hq2]
        by_cases hp : pid = "player1"
        · subst hp
          rw [getRetries_p1] at hlt
          simp [getRetries_p1, Nat.not_le.mpr hlt, hv, hv2, catchBlock]
        · rw [getRetries_ne _ _ hp] at hlt
          simp [getRetries_ne _ _ hp, Nat.not_le.mpr hlt, hv, hv2, catchBlock]

/-- C7 witness: a first-attempt success resets a counter of 5 to 0; an
invalid attempt with a successful retry turns a counter of 0 into 1. -/
theorem hallucination_counter_witness :
    getRetries
      (executeTurn 3
        { fen := "k6r/8/8/8/8/8/8/K6R white - - 0 1", turn := "white",
          moveNumber := 1, status := "running", gameResult := none,
          retriesP1 := 5, retriesP2 := 0, directorOverride := none,
          directorPrompt := none, errorLogs := 0 }
        "player1" ⟨true, some "Rh2", none⟩).1 "player1" = 0 ∧
    getRetries
      (executeTurn 3
        { fen := "k6r/8/8/8/8/8/8/K6R white - - 0 1", turn := "white",
          moveNumber := 1, status := "running", gameResult := none,
          retriesP1 := 0, retriesP2 := 0, directorOverride := none,
          directorPrompt := none, errorLogs := 0 }
        "player1" ⟨true, some "e4", some "Rh2"⟩).1 "player1" = 0 + 1 :=
  ⟨(hallucination_counter_behavior 3
      { fen := "k6r/8/8/8/8/8/8/K6R white - - 0 1", turn := "white",
        moveNumber := 1, status := "running", gameResult := none,
        retriesP1 := 5, retriesP2 := 0, directorOverride := none,
        directorPrompt := none, errorLogs := 0 }
      "player1" "Rh2" ⟨true, some "Rh2", none⟩
      (by decide) rfl rfl rfl).1 (by decide),
   (((hallucination_counter_behavior 3
      { fen := "k6r/8/8/8/8/8/8/K6R white - - 0 1", turn := "white",
        moveNumber := 1, status := "running", gameResult := none,
        retriesP1 := 0, retriesP2 := 0, directorOverride := none,
        directorPrompt := none, errorLogs := 0 }
      "player1" "e4" ⟨true, some "e4", some "Rh2"⟩
      (by decide) rfl rfl rfl).2 (by decide)).2.2 "Rh2" (by decide)
      rfl).1 (by decide)⟩

/-- C9 — counterexample: `executeTurn` re-checks the terminal state
**before** the director-override branch, so `forceMove` with an illegal
move (`e4` — rejected, there is no pawn) from a paused two-kings position
(a terminal position: insufficient material) flips the MatchStatus from
`paused` to `game_over` instead of leaving it unchanged. -/
theorem force_move_on_terminal_position_changes_status :
    (validateMove (mkValidator "k7/8/8/8/8/8/8/K7 white - - 0 1")
        "e4").1.valid = false ∧
    (forceMove 3
        { fen := "k7/8/8/8/8/8/8/K7 white - - 0 1", turn := "white",
          moveNumber := 1, status := "paused", gameResult := none,
          retriesP1 := 0, retriesP2 := 0, directorOverride := none,
          directorPrompt := none, errorLogs := 0 }
        "e4" "player1" "player1" ⟨true, none, none⟩).status = "game_over" ∧
    ("game_over" : String) ≠ "paused" := by
  decide

/-- C9 (amended) — Forced-move atomicity on non-terminal positions: when
the current position is not already terminal and the adapter is
constructible, `forceMove` with a move that `validateMove` rejects leaves
the Position (FEN, side to move, move number) and the MatchStatus exactly
unchanged, and on the immediate-execution path (paused, matching active
player) it reports an error. -/
theorem force_move_rejected_leaves_state (N : Nat) (s : OrchState)
    (mv pid active : String) (inp : TurnInput)
    (hg : (getGameState (mkValidator s.fen) []).gameOver = false)
    (ha : inp.adapterOk = true)
    (hv : (validateMove (mkValidator s.fen) mv).1.valid = false) :
    (forceMove N s mv pid active inp).fen = s.fen ∧
    (forceMove N s mv pid active inp).turn = s.turn ∧
    (forceMove N s mv pid active inp).moveNumber = s.moveNumber ∧
    (forceMove N s mv pid active inp).status = s.status ∧
    (s.status = "paused" → active = pid →
      (forceMove N s mv pid active inp).errorLogs = s.errorLogs + 1) := by
  rcases hq : validateMove (mkValidator s.fen) mv with ⟨r1, w1⟩
  rw [hq] at hv
  simp only at hv
  unfold forceMove
  by_cases hc : s.status = "paused" ∧ active = pid
  · rw [if_pos hc]
    simp only [executeTurn, hg, ha, hq]
    simp [hv]
  · rw [if_neg hc]
    refine ⟨rfl, rfl, rfl, rfl, ?_⟩
    intro h1 h2
    exact absurd ⟨h1, h2⟩ hc

/-- C9 witness: from a paused, non-terminal position, the rejected forced
move `e4` leaves FEN, turn, move number and status unchanged and logs an
error. -/
theorem force_move_rejected_witness :
    (forceMove 3
        { fen := "k6r/8/8/8/8/8/8/K6R white - - 0 1", turn := "white",
          moveNumber := 1, status := "paused", gameResult := none,
          retriesP1 := 0, retriesP2 := 0, directorOverride := none,
          directorPrompt := none, errorLogs := 0 }
        "e4" "player1" "player1" ⟨true, none, none⟩).status = "paused" ∧
    (forceMove 3
        { fen := "k6r/8/8/8/8/8/8/K6R white - - 0 1", turn := "white",
          moveNumber := 1, status := "paused", gameResult := none,
          retriesP1 := 0, retriesP2 := 0, directorOverride := none,
          directorPrompt := none, errorLogs := 0 }
        "e4" "player1" "player1" ⟨true, none, none⟩).fen =
      "k6r/8/8/8/8/8/8/K6R white - - 0 1" ∧
    (forceMove 3
        { fen := "k6r/8/8/8/8/8/8/K6R white - - 0 1", turn := "white",
          moveNumber := 1, status := "paused", gameResult := none,
          retriesP1 := 0, retriesP2 := 0, directorOverride := none,
          directorPrompt := none, errorLogs := 0 }
        "e4" "player1" "player1" ⟨true, none, none⟩).errorLogs = 0 + 1 :=
  ⟨(force_move_rejected_leaves_state 3
      { fen := "k6r/8/8/8/8/8/8/K6R white - - 0 1", turn := "white",
        moveNumber := 1, status := "paused", gameResult := none,
        retriesP1 := 0, retriesP2 := 0, directorOverride := none,
        directorPrompt := none, errorLogs := 0 }
      "e4" "player1" "player1" ⟨true, none, none⟩
      (by decide) rfl (by decide)).2.2.2.1,
   (force_move_rejected_leaves_state 3
      { fen := "k6r/8/8/8/8/8/8/K6R white - - 0 1", turn := "white",
        moveNumber := 1, status := "paused", gameResult := none,
        retriesP1 := 0, retriesP2 := 0, directorOverride := none,
        directorPrompt := none, errorLogs := 0 }
      "e4" "player1" "player1" ⟨true, none, none⟩
      (by decide) rfl (by decide)).1,
   (force_move_rejected_leaves_state 3
      { fen := "k6r/8/8/8/8/8/8/K6R white - - 0 1", turn := "white",
        moveNumber := 1, status := "paused", gameResult := none,
        retriesP1 := 0, retriesP2 := 0, directorOverride := none,
        directorPrompt := none, errorLogs := 0 }
      "e4" "player1" "player1" ⟨true, none, none⟩
      (by decide) rfl (by decide)).2.2.2.2 rfl rfl⟩

/-- Helper: the JS split never returns an empty array. -/
theorem splitSp_ne_nil (cs : List Char) : splitSp cs ≠ [] := by
  induction cs with
  | nil => simp [splitSp]
  | cons c cs ih =>
    by_cases hc : c = ' '
    · simp [splitSp, hc]
    · cases h : splitSp cs with
      | nil => exact absurd h ih
      | cons a as => simp [splitSp, hc, h]

/-- Helper: no split component contains the separator. -/
theorem mem_splitSp_no_space (cs : List Char) :
    ∀ x ∈ splitSp cs, ' ' ∉ x := by
  induction cs with
  | nil =>
    intro x hx
    simp [splitSp] at hx
    simp [hx]
  | cons c cs ih =>
    intro x hx
    by_cases hc : c = ' '
    · simp [splitSp, hc] at hx
      rcases hx with hx | hx
      · simp [hx]
      · exact ih x hx
    · cases h : splitSp cs with
      | nil => exact absurd h (splitSp_ne_nil cs)
      | cons a as =>
        simp [splitSp, hc, h] at hx
        rcases hx with hx | hx
        · subst hx
          intro hmem
          rcases List.mem_cons.mp hmem with h1 | h1
          · exact hc h1.symm
          · exact ih a (h ▸ List.mem_cons_self a as) h1
        · exact ih x (h ▸ List.mem_cons_of_mem a hx)

/-- Helper: splitting a separator-free character list. -/
theorem splitSp_no_space (x : List Char) (h : ' ' ∉ x) : splitSp x = [x] := by
  induction x with
  | nil => rfl
  | cons c x ih =>
    have hc : ¬c = ' ' := fun hcc => h (hcc ▸ List.mem_cons_self c x)
    have hx : ' ' ∉ x := fun hmem => h (List.mem_cons_of_mem c hmem)
    simp [splitSp, hc, ih hx]

/-- Helper: splitting a separator-free prefix followed by a separator. -/
theorem splitSp_append_space (x r : List Char) (h : ' ' ∉ x) :
    splitSp (x ++ ' ' :: r) = x :: splitSp r := by
  induction x with
  | nil => simp [splitSp]
  | cons c x ih =>
    have hc : ¬c = ' ' := fun hcc => h (hcc ▸ List.mem_cons_self c x)
    have hx : ' ' ∉ x := fun hmem => h (List.mem_cons_of_mem c hmem)
    simp [splitSp, hc, ih hx]

/-- Helper: the characters of a space-join. -/
theorem joinSp_data : ∀ xs : List String,
    (joinSp xs).data = joinChar ' ' (xs.map String.data)
  | [] => rfl
  | [x] => rfl
  | x :: y :: t => by
    show (x ++ " " ++ joinSp (y :: t)).data = _
    rw [String.data_append, String.data_append, joinSp_data (y :: t)]
    simp [joinChar]

/-- Helper: splitting undoes joining of separator-free components. -/
theorem splitSp_joinChar : ∀ xs : List (List Char), xs ≠ [] →
    (∀ x ∈ xs, ' ' ∉ x) → splitSp (joinChar ' ' xs) = xs
  | [], hne, _ => absurd rfl hne
  | [x], _, h => splitSp_no_space x (h x (List.mem_cons_self x []))
  | x :: y :: t, _, h => by
    show splitSp (x ++ ' ' :: joinChar ' ' (y :: t)) = _
    rw [splitSp_append_space x _ (h x (List.mem_cons_self _ _)),
      splitSp_joinChar (y :: t) (by simp)
        (fun z hz => h z (List.mem_cons_of_mem x hz))]

/-- Helper: `jsSplit` undoes `joinSp` on separator-free components. -/
theorem jsSplit_joinSp (xs : List String) (hne : xs ≠ [])
    (h : ∀ x ∈ xs, ' ' ∉ x.data) : jsSplit (joinSp xs) = xs := by
  unfold jsSplit
  rw [joinSp_data xs, splitSp_joinChar (xs.map String.data)
    (by simpa using hne)
    (by
      intro y hy
      rcases List.mem_map.mp hy with ⟨x, hx, rfl⟩
      exact h x hx)]
  rw [List.map_map]
  have hid : (String.mk ∘ String.data) = id := funext fun s => rfl
  rw [hid, List.map_id]

/-- Helper: `jsSplit` never returns an empty array. -/
theorem jsSplit_ne_nil (s : String) : jsSplit s ≠ [] := by
  unfold jsSplit
  intro h
  exact splitSp_ne_nil s.data (List.map_eq_nil_iff.mp h)

/-- Helper: every `jsSplit` component is space-free. -/
theorem mem_jsSplit_no_space (s : String) :
    ∀ x ∈ jsSplit s, ' ' ∉ x.data := by
  intro x hx
  rcases List.mem_map.mp hx with ⟨y, hy, rfl⟩
  exact mem_splitSp_no_space s.data y hy

/-- Helper: equality of the joined 3-field repetition keys is equality of
the field lists. -/
theorem firstThreeFields_eq_iff (f g : String) :
    firstThreeFields f = firstThreeFields g ↔ fenFields 3 f = fenFields 3 g := by
  constructor
  · intro h
    have hne : ∀ s : String, fenFields 3 s ≠ [] := by
      intro s hnil
      unfold fenFields at hnil
      rcases (List.take_eq_nil_iff).mp hnil with h3 | h3
      · exact absurd h3 (by norm_num)
      · exact jsSplit_ne_nil s h3
    have hsp : ∀ s : String, ∀ x ∈ fenFields 3 s, ' ' ∉ x.data := by
      intro s x hx
      exact mem_jsSplit_no_space s x (List.take_subset _ _ hx)
    have hf := jsSplit_joinSp (fenFields 3 f) (hne f) (hsp f)
    have hg := jsSplit_joinSp (fenFields 3 g) (hne g) (hsp g)
    rw [← hf, ← hg]
    unfold firstThreeFields at h
    unfold fenFields
    rw [h]
  · intro h
    unfold firstThreeFields
    unfold fenFields at h
    rw [h]

/-- C6 — counterexample: the current position (en-passant `'-'`) and two
history entries that differ from it only in the en-passant field (`e3`,
`e6`) are reported as a threefold repetition, although the claim's tuple
(board, side, castling **and** en-passant) matches only once among
current + history. -/
theorem threefold_ignores_en_passant :
    isThreefoldRepetition (mkValidator "8/8/8/8/8/8/8/8 w KQkq - 0 1")
      ["8/8/8/8/8/8/8/8 w KQkq e3 0 1", "8/8/8/8/8/8/8/8 w KQkq e6 0 5"]
      = true ∧
    (((mkValidator "8/8/8/8/8/8/8/8 w KQkq - 0 1").fen ::
        ["8/8/8/8/8/8/8/8 w KQkq e3 0 1",
         "8/8/8/8/8/8/8/8 w KQkq e6 0 5"]).filter fun f =>
      fenFields 4 f =
        fenFields 4 (mkValidator "8/8/8/8/8/8/8/8 w KQkq - 0 1").fen).length
      = 1 ∧
    ¬3 ≤ 1 := by
  decide

/-- C6 (amended) — Threefold-repetition criterion as implemented: a
position is reported as a threefold-repetition draw exactly when the
first **three** FEN fields of the current position — board layout, side
to move and castling rights, the en-passant field excluded — occur 3 or
more times among the current position and the given history. -/
theorem threefold_counts_board_side_castling (v : Validator)
    (hist : List String) :
    isThreefoldRepetition v hist = true ↔
      3 ≤ ((v.fen :: hist).filter fun f =>
        fenFields 3 f = fenFields 3 v.fen).length := by
  unfold isThreefoldRepetition
  simp only [decide_eq_true_eq]
  have key : ((firstThreeFields v.fen :: hist.map firstThreeFields).filter
      fun p => p = firstThreeFields v.fen).length =
      ((v.fen :: hist).filter fun f =>
        fenFields 3 f = fenFields 3 v.fen).length := by
    simp only [List.filter_cons]
    simp only [decide_True, if_true]
    simp only [List.length_cons, Nat.succ.injEq]
    rw [← List.countP_eq_length_filter, ← List.countP_eq_length_filter,
      List.countP_map]
    apply List.countP_congr
    intro f _
    simp only [Function.comp, decide_eq_true_eq]
    exact firstThreeFields_eq_iff f v.fen
  rw [key]

/-- Helper: a digit character is a digit. -/
theorem digitChar_isDigit (d : Nat) (h : d < 10) :
    (digitChar d).isDigit = true := by
  interval_cases d <;> decide

/-- Helper: a digit character is not the rank separator. -/
theorem digitChar_ne_slash (d : Nat) (h : d < 10) : digitChar d ≠ '/' := by
  interval_cases d <;> decide

/-- Helper: the numeric value read back from a digit character. -/
theorem digitChar_toNat (d : Nat) (h : d < 10) :
    (digitChar d).toNat - 48 = d := by
  interval_cases d <;> decide

/-- Helper: a digit character is not a space. -/
theorem isDigit_ne_space (c : Char) (h : c.isDigit = true) : c ≠ ' ' := by
  intro hc
  subst hc
  simp at h

/-- Helper: every character of a decimal representation is a digit. -/
theorem natChars_all_digits (n : Nat) :
    ∀ c ∈ natChars n, c.isDigit = true := by
  induction n using Nat.strong_induction_on with
  | _ n ih =>
    intro c hc
    by_cases h : n < 10
    · rw [natChars, dif_pos h] at hc
      simp at hc
      subst hc
      exact digitChar_isDigit n h
    · rw [natChars, dif_neg h] at hc
      rcases List.mem_append.mp hc with h1 | h1
      · exact ih (n / 10) (Nat.div_lt_self (by omega) (by omega)) c h1
      · simp at h1
        subst h1
        exact digitChar_isDigit (n % 10) (Nat.mod_lt n (by omega))

/-- Helper: the decimal representation is nonempty. -/
theorem natChars_ne_nil (n : Nat) : natChars n ≠ [] := by
  by_cases h : n < 10
  · rw [natChars, dif_pos h]
    simp
  · rw [natChars, dif_neg h]
    simp

/-- Helper: a one-digit number has a one-character representation. -/
theorem natChars_single (n : Nat) (h : n < 10) :
    natChars n = [digitChar n] := by
  rw [natChars, dif_pos h]

/-- Helper: the digit reader consumes an all-digit prefix completely. -/
theorem digitsVal_append (l1 l2 : List Char) (acc : Nat)
    (h : ∀ c ∈ l1, c.isDigit = true) :
    digitsVal (l1 ++ l2) acc = digitsVal l2 (digitsVal l1 acc) := by
  induction l1 generalizing acc with
  | nil => rfl
  | cons c l1 ih =>
    have hc := h c (List.mem_cons_self c l1)
    simp only [List.cons_append, digitsVal, hc, if_pos]
    exact ih _ fun x hx => h x (List.mem_cons_of_mem c hx)

/-- Helper: reading the decimal representation back. -/
theorem digitsVal_natChars (n : Nat) : ∀ acc : Nat,
    digitsVal (natChars n) acc = acc * 10 ^ (natChars n).length + n := by
  induction n using Nat.strong_induction_on with
  | _ n ih =>
    intro acc
    by_cases h : n < 10
    · rw [natChars_single n h]
      simp [digitsVal, digitChar_isDigit n h, digitChar_toNat n h]
    · rw [natChars, dif_neg h]
      rw [digitsVal_append _ _ _
        (natChars_all_digits (n / 10))]
      rw [ih (n / 10) (Nat.div_lt_self (by omega) (by omega)) acc]
      have h10 : n % 10 < 10 := Nat.mod_lt n (by omega)
      simp only [digitsVal, digitChar_isDigit _ h10, if_pos,
        digitChar_toNat _ h10]
      rw [List.length_append, List.length_singleton, pow_succ,
        ← Nat.mul_assoc]
      have hdm := Nat.div_add_mod n 10
      set A := acc * 10 ^ (natChars (n / 10)).length with hA
      omega

/-- Helper: `parseInt` reads back the decimal representation. -/
theorem jsParseIntNat_natToString (n : Nat) :
    jsParseIntNat (natToString n) = some n := by
  have hdata : (natToString n).data = natChars n := rfl
  unfold jsParseIntNat
  rw [hdata]
  cases hh : natChars n with
  | nil => exact absurd hh (natChars_ne_nil n)
  | cons c rest =>
    have hc : c.isDigit = true :=
      natChars_all_digits n c (hh ▸ List.mem_cons_self c rest)
    show (if c.isDigit = true then some (digitsVal (c :: rest) 0) else none)
      = some n
    rw [if_pos hc, ← hh, digitsVal_natChars n 0]
    simp

/-- Helper: the decimal representation contains no space. -/
theorem natChars_no_space (n : Nat) : ∀ c ∈ natChars n, c ≠ ' ' :=
  fun c hc => isDigit_ne_space c (natChars_all_digits n c hc)

/-- Helper: writing a cell back over itself. -/
theorem set_get_self {α : Type} (l : List α) (n : Nat) (d : α)
    (h : n < l.length) : l.set n ((l.get? n).getD d) = l := by
  apply List.ext_get?
  intro i
  rw [List.get?_set]
  by_cases hi : n = i
  · subst hi
    cases hg : l.get? n with
    | none =>
      rw [List.get?_eq_none] at hg
      omega
    | some a => simp [hg]
  · simp [hi]

/-- Helper: taking one past an updated index. -/
theorem take_set_succ {α : Type} (l : List α) (n : Nat) (a : α)
    (h : n < l.length) : (l.set n a).take (n + 1) = l.take n ++ [a] := by
  rw [List.take_succ]
  congr 1
  · apply List.ext_get?
    intro i
    by_cases hi : i < n
    · rw [List.get?_take hi, List.get?_take hi, List.get?_set]
      simp [Nat.ne_of_gt hi]
    · have h1 : (List.take n (l.set n a)).get? i = none := by
        rw [List.get?_eq_none]
        simp [Nat.le_of_not_lt hi]
      have h2 : (List.take n l).get? i = none := by
        rw [List.get?_eq_none]
        simp [Nat.le_of_not_lt hi]
      rw [h1, h2]
  · cases hg : l[n]? with
    | none =>
      rw [List.getElem?_eq_none_iff] at hg
      omega
    | some b =>
      rw [List.getElem?_set_self', hg]
      rfl

/-- Helper: the parse step on a single digit character. -/
theorem fenStep_digit (B : Board) (r f em : Nat) (h1 : 0 < em)
    (h2 : em < 10) : fenStep (B, r, f) (digitChar em) = (B, r, f + em) := by
  show (if digitChar em = '/' then (B, r + 1, 0)
    else if (digitChar em).isDigit = true then
      (B, r, f + ((digitChar em).toNat - 48))
    else (setCell B r f (some ⟨(digitChar em).toLower,
        if (digitChar em).toUpper = digitChar em then "white" else "black"⟩),
      r, f + 1)) = (B, r, f + em)
  rw [if_neg (digitChar_ne_slash em h2)]
  rw [if_pos (digitChar_isDigit em h2)]
  rw [digitChar_toNat em h2]

/-- Helper: the digits emitted for a pending empty-run, folded. -/
theorem foldl_fenStep_empties (B : Board) (r f em : Nat) (h2 : em < 10) :
    List.foldl fenStep (B, r, f) (if 0 < em then natChars em else []) =
      (B, r, f + em) := by
  by_cases h1 : 0 < em
  · rw [if_pos h1, natChars_single em h2]
    show fenStep (B, r, f) (digitChar em) = (B, r, f + em)
    exact fenStep_digit B r f em h1 h2
  · rw [if_neg h1]
    have : em = 0 := by omega
    subst this
    rfl

/-- Helper: the parse step on an emitted piece character recovers the
piece. -/
theorem fenStep_pieceChar (B : Board) (r f : Nat) (p : Piece)
    (h : wfPiece p = true) :
    fenStep (B, r, f) (pieceChar p) = (setCell B r f (some p), r, f + 1) := by
  obtain ⟨t, col⟩ := p
  simp only [wfPiece, Bool.and_eq_true, decide_eq_true_eq, Bool.or_eq_true,
    beq_iff_eq] at h
  obtain ⟨h1, h2⟩ := h
  simp only [List.mem_cons, List.mem_singleton, List.not_mem_nil,
    or_false] at h1
  rcases h2 with h2 | h2 <;> subst h2 <;>
    rcases h1 with rfl | rfl | rfl | rfl | rfl | rfl <;> rfl

/-- Helper: the piece characters emitted by the serializer are not
spaces, separators or digits. -/
theorem pieceChar_not_special (p : Piece) (h : wfPiece p = true) :
    pieceChar p ≠ ' ' ∧ pieceChar p ≠ '/' := by
  obtain ⟨t, col⟩ := p
  simp only [wfPiece, Bool.and_eq_true, decide_eq_true_eq, Bool.or_eq_true,
    beq_iff_eq] at h
  obtain ⟨h1, h2⟩ := h
  simp only [List.mem_cons, List.mem_singleton, List.not_mem_nil,
    or_false] at h1
  rcases h2 with h2 | h2 <;> subst h2 <;>
    rcases h1 with rfl | rfl | rfl | rfl | rfl | rfl <;> exact ⟨by decide, by decide⟩

/-- Helper: reading an updated index. -/
theorem get?_set_self_of_lt {α : Type} (l : List α) (n : Nat) (a : α)
    (h : n < l.length) : (l.set n a).get? n = some a := by
  rw [List.get?_eq_getElem?, List.getElem?_set_self']
  cases hg : l[n]? with
  | none =>
    rw [List.getElem?_eq_none_iff] at hg
    omega
  | some b => rfl

/-- Helper: writing cells over an all-empty suffix recovers them in
place, the skipped empties staying empty. -/
theorem rowWrite_take_append :
    ∀ (cells : List (Option Piece)) (pos : Nat) (cur : List (Option Piece)),
    cur.length = 8 → pos + cells.length ≤ 8 →
    (∀ i, pos ≤ i → i < 8 → cur.get? i = some none) →
    rowWrite cur pos cells =
      cur.take pos ++ cells ++ List.replicate (8 - (pos + cells.length)) none
  | [], pos, cur, hlen, hle, hall => by
    show cur = cur.take pos ++ [] ++ List.replicate (8 - (pos + 0)) none
    simp only [List.append_nil, List.nil_append]
    apply List.ext_get?
    intro i
    by_cases hi : i < pos
    · rw [List.get?_append (by rw [List.length_take]; omega),
        List.get?_take hi]
    · by_cases hi8 : i < 8
      · rw [List.get?_append_right (by rw [List.length_take]; omega)]
        rw [List.length_take]
        rw [hall i (by omega) hi8]
        rw [List.get?_eq_getElem?, List.getElem?_replicate]
        rw [if_pos (by omega)]
      · rw [List.get?_eq_none.mpr (by omega)]
        rw [List.get?_eq_none.mpr (by simp [List.length_take]; omega)]
  | none :: cs, pos, cur, hlen, hle, hall => by
    show rowWrite cur (pos + 1) cs = _
    rw [rowWrite_take_append cs (pos + 1) cur hlen (by simp at hle ⊢; omega)
      (fun i h1 h2 => hall i (by omega) h2)]
    have htake : cur.take (pos + 1) = cur.take pos ++ [(none : Option Piece)] := by
      rw [List.take_succ, ← List.get?_eq_getElem?,
        hall pos (Nat.le_refl pos) (by simp at hle; omega)]
      rfl
    rw [htake]
    have harr : 8 - (pos + 1 + cs.length) = 8 - (pos + (none :: cs).length) := by
      simp
      omega
    rw [harr]
    simp [List.append_assoc]
  | some p :: cs, pos, cur, hlen, hle, hall => by
    show rowWrite (cur.set pos (some p)) (pos + 1) cs = _
    rw [rowWrite_take_append cs (pos + 1) (cur.set pos (some p))
      (by rw [List.length_set]; exact hlen)
      (by simp at hle ⊢; omega)
      (fun i h1 h2 => by
        rw [List.get?_set_ne _ _ (by omega)]
        exact hall i (by omega) h2)]
    rw [take_set_succ cur pos (some p) (by simp at hle; omega)]
    have harr : 8 - (pos + 1 + cs.length) = 8 - (pos + (some p :: cs).length) := by
      simp
      omega
    rw [harr]
    simp [List.append_assoc]

/-- Helper: unfolding `wfCells` over a cons. -/
theorem wfCells_cons (cell : Option Piece) (cs : List (Option Piece))
    (h : wfCells (cell :: cs) = true) :
    (∀ p, cell = some p → wfPiece p = true) ∧ wfCells cs = true := by
  unfold wfCells at h ⊢
  rw [List.all_cons, Bool.and_eq_true] at h
  refine ⟨?_, h.2⟩
  intro p hp
  subst hp
  exact h.1

/-- Helper: the rank separator parse step. -/
theorem fenStep_slash (B : Board) (r f : Nat) :
    fenStep (B, r, f) '/' = (B, r + 1, 0) := rfl

/-- Helper: folding the parse step over one encoded rank writes exactly
that rank's cells. -/
theorem foldl_fenStep_rowFen :
    ∀ (cells : List (Option Piece)) (em : Nat) (B : Board) (r f : Nat),
    B.length = 8 → r < 8 → f + em + cells.length ≤ 8 →
    wfCells cells = true →
    List.foldl fenStep (B, r, f) (rowFen cells em) =
      (B.set r (rowWrite ((B.get? r).getD []) (f + em) cells), r,
        f + em + cells.length)
  | [], em, B, r, f, hlen, hr, hle, _ => by
    show List.foldl fenStep (B, r, f) (if 0 < em then natChars em else []) = _
    rw [foldl_fenStep_empties B r f em (by omega)]
    show (B, r, f + em) = (B.set r (rowWrite ((B.get? r).getD []) (f + em) []),
      r, f + em + 0)
    rw [show rowWrite ((B.get? r).getD []) (f + em) [] =
      (B.get? r).getD [] from rfl]
    rw [set_get_self B r [] (by omega)]
    rfl
  | none :: cs, em, B, r, f, hlen, hr, hle, hwf => by
    show List.foldl fenStep (B, r, f) (rowFen cs (em + 1)) = _
    rw [foldl_fenStep_rowFen cs (em + 1) B r f hlen hr
      (by simp at hle ⊢; omega) (wfCells_cons none cs hwf).2]
    have h1 : f + (em + 1) = f + em + 1 := by omega
    have h2 : f + (em + 1) + cs.length = f + em + (none :: cs).length := by
      simp
      omega
    rw [show rowWrite ((B.get? r).getD []) (f + em) (none :: cs) =
      rowWrite ((B.get? r).getD []) (f + em + 1) cs from rfl]
    rw [h2, h1]
  | some p :: cs, em, B, r, f, hlen, hr, hle, hwf => by
    obtain ⟨hp, hcs⟩ := wfCells_cons (some p) cs hwf
    have hpw : wfPiece p = true := hp p rfl
    show List.foldl fenStep (B, r, f)
      ((if 0 < em then natChars em else []) ++ pieceChar p :: rowFen cs 0) = _
    rw [List.foldl_append]
    rw [foldl_fenStep_empties B r f em (by simp at hle; omega)]
    rw [List.foldl_cons, fenStep_pieceChar B r (f + em) p hpw]
    rw [foldl_fenStep_rowFen cs 0 (setCell B r (f + em) (some p)) r (f + em + 1)
      (by unfold setCell; rw [List.length_set]; exact hlen) hr
      (by simp at hle ⊢; omega) hcs]
    have hget : ((setCell B r (f + em) (some p)).get? r).getD [] =
        ((B.get? r).getD []).set (f + em) (some p) := by
      unfold setCell
      rw [get?_set_self_of_lt B r _ (by omega)]
      rfl
    rw [hget]
    have hset : (setCell B r (f + em) (some p)).set r
        (rowWrite (((B.get? r).getD []).set (f + em) (some p)) (f + em + 1) cs)
        = B.set r
        (rowWrite (((B.get? r).getD []).set (f + em) (some p)) (f + em + 1) cs) := by
      unfold setCell
      rw [List.set_set]
    rw [hset]
    rw [show rowWrite ((B.get? r).getD []) (f + em) (some p :: cs) =
      rowWrite (((B.get? r).getD []).set (f + em) (some p)) (f + em + 1) cs
      from rfl]
    have harr : f + em + 1 + 0 + cs.length = f + em + (some p :: cs).length := by
      simp
      omega
    rw [harr]

/-- Helper: folding the parse step over the whole encoded placement fills
the rows in order. -/
theorem foldl_fenStep_board :
    ∀ (rows : List (List (Option Piece))) (B : Board) (r : Nat),
    B.length = 8 → rows ≠ [] → r + rows.length = 8 →
    (∀ row ∈ rows, row.length = 8 ∧ wfCells row = true) →
    (∀ k, r ≤ k → k < 8 → (B.get? k).getD [] = List.replicate 8 none) →
    List.foldl fenStep (B, r, 0)
        (joinChar '/' (rows.map fun row => rowFen row 0)) =
      (B.take r ++ rows, 8 - 1, 8)
  | [], _, _, _, hne, _, _, _ => absurd rfl hne
  | [row], B, r, hlen, _, hr, hwf, hrep => by
    obtain ⟨hrowlen, hrowwf⟩ := hwf row (List.mem_cons_self row [])
    show List.foldl fenStep (B, r, 0) (rowFen row 0) = _
    rw [foldl_fenStep_rowFen row 0 B r 0 hlen (by simp at hr; omega)
      (by rw [hrowlen]) hrowwf]
    rw [hrep r (Nat.le_refl r) (by simp at hr; omega)]
    rw [rowWrite_take_append row 0 (List.replicate 8 none) (by simp)
      (by rw [hrowlen])
      (fun i _ h2 => by
        rw [List.get?_eq_getElem?, List.getElem?_replicate, if_pos h2])]
    rw [hrowlen]
    simp only [List.take_zero, List.nil_append, Nat.sub_self,
      List.replicate_zero, List.append_nil]
    have hr7 : r = 7 := by simp at hr; omega
    subst hr7
    rw [List.set_eq_take_append_cons_drop]
    rw [if_pos (by omega)]
    rw [List.drop_eq_nil_of_le (by omega)]
  | row :: row2 :: rest, B, r, hlen, _, hr, hwf, hrep => by
    obtain ⟨hrowlen, hrowwf⟩ := hwf row (List.mem_cons_self _ _)
    have hrlt : r < 8 := by simp at hr; omega
    show List.foldl fenStep (B, r, 0)
      (rowFen row 0 ++ '/' :: joinChar '/' ((row2 :: rest).map fun rw => rowFen rw 0)) = _
    rw [List.foldl_append]
    rw [foldl_fenStep_rowFen row 0 B r 0 hlen hrlt
      (by rw [hrowlen]) hrowwf]
    rw [hrep r (Nat.le_refl r) hrlt]
    rw [rowWrite_take_append row 0 (List.replicate 8 none) (by simp)
      (by rw [hrowlen])
      (fun i _ h2 => by
        rw [List.get?_eq_getElem?, List.getElem?_replicate, if_pos h2])]
    rw [hrowlen]
    simp only [List.take_zero, List.nil_append, Nat.sub_self,
      List.replicate_zero, List.append_nil]
    rw [List.foldl_cons, fenStep_slash]
    rw [foldl_fenStep_board (row2 :: rest) (B.set r row) (r + 1)
      (by rw [List.length_set]; exact hlen)
      (by simp)
      (by simp at hr ⊢; omega)
      (fun rw hrw => hwf rw (List.mem_cons_of_mem row hrw))
      (fun k h1 h2 => by
        rw [List.get?_set_ne _ _ (by omega)]
        exact hrep k (by omega) h2)]
    rw [take_set_succ B r row (by omega)]
    rw [List.append_assoc]
    rfl

/-- Helper: characters of an encoded rank are never spaces. -/
theorem rowFen_no_space :
    ∀ (cells : List (Option Piece)) (em : Nat), wfCells cells = true →
    ∀ ch ∈ rowFen cells em, ch ≠ ' '
  | [], em, _, ch, hch => by
    rw [show rowFen [] em = (if 0 < em then natChars em else []) from rfl]
      at hch
    by_cases h : 0 < em
    · rw [if_pos h] at hch
      exact natChars_no_space em ch hch
    · rw [if_neg h] at hch
      cases hch
  | none :: cs, em, hwf, ch, hch =>
    rowFen_no_space cs (em + 1) (wfCells_cons none cs hwf).2 ch hch
  | some p :: cs, em, hwf, ch, hch => by
    obtain ⟨hp, hcs⟩ := wfCells_cons (some p) cs hwf
    rw [show rowFen (some p :: cs) em =
      (if 0 < em then natChars em else []) ++ pieceChar p :: rowFen cs 0
      from rfl] at hch
    rcases List.mem_append.mp hch with h1 | h1
    · by_cases h : 0 < em
      · rw [if_pos h] at h1
        exact natChars_no_space em ch h1
      · rw [if_neg h] at h1
        cases h1
    · rcases List.mem_cons.mp h1 with h2 | h2
      · subst h2
        exact (pieceChar_not_special p (hp p rfl)).1
      · exact rowFen_no_space cs 0 hcs ch h2

/-- Helper: membership in a separator-join. -/
theorem mem_joinChar (sep : Char) :
    ∀ (xs : List (List Char)) (ch : Char), ch ∈ joinChar sep xs →
      ch = sep ∨ ∃ x ∈ xs, ch ∈ x
  | [], _, hch => by cases hch
  | [x], ch, hch => Or.inr ⟨x, List.mem_cons_self x [], hch⟩
  | x :: y :: t, ch, hch => by
    rw [show joinChar sep (x :: y :: t) = x ++ sep :: joinChar sep (y :: t)
      from rfl] at hch
    rcases List.mem_append.mp hch with h1 | h1
    · exact Or.inr ⟨x, List.mem_cons_self _ _, h1⟩
    · rcases List.mem_cons.mp h1 with h2 | h2
      · exact Or.inl h2
      · rcases mem_joinChar sep (y :: t) ch h2 with h3 | ⟨z, hz, hchz⟩
        · exact Or.inl h3
        · exact Or.inr ⟨z, List.mem_cons_of_mem x hz, hchz⟩

/-- Helper: unfolding `wfBoard`. -/
theorem wfBoard_spec (b : Board) (h : wfBoard b = true) :
    b.length = 8 ∧ ∀ row ∈ b, row.length = 8 ∧ wfCells row = true := by
  unfold wfBoard at h
  rw [Bool.and_eq_true, beq_iff_eq, List.all_eq_true] at h
  refine ⟨h.1, ?_⟩
  intro row hrow
  have := h.2 row hrow
  rw [Bool.and_eq_true, beq_iff_eq] at this
  exact this

/-- Helper: the serialized placement field contains no space. -/
theorem placementFen_no_space (b : Board) (hb : wfBoard b = true) :
    ' ' ∉ (placementFen b).data := by
  intro hmem
  rcases mem_joinChar '/' (b.map fun row => rowFen row 0) ' ' hmem with
    h1 | ⟨x, hx, hchx⟩
  · cases h1
  · rcases List.mem_map.mp hx with ⟨row, hrow, rfl⟩
    exact rowFen_no_space row 0 ((wfBoard_spec b hb).2 row hrow).2 ' ' hchx rfl

/-- Helper: separator-freedom expressed as non-membership. -/
theorem no_space_of_all (l : List Char) (h : ∀ ch ∈ l, ch ≠ ' ') :
    ' ' ∉ l := fun hmem => h ' ' hmem rfl

/-- Helper: splitting the serialized FEN recovers its six fields. -/
theorem jsSplit_boardToFen (b : Board) (t c e : String) (hm fm : Nat)
    (hb : wfBoard b = true)
    (ht : ' ' ∉ t.data) (hc : ' ' ∉ c.data) (he : ' ' ∉ e.data) :
    jsSplit (boardToFen b t c e hm fm) =
      [placementFen b, t, c, e, natToString hm, natToString fm] := by
  unfold jsSplit
  have hdata : (boardToFen b t c e hm fm).data =
      (placementFen b).data ++ ' ' :: (t.data ++ ' ' :: (c.data ++ ' ' ::
        (e.data ++ ' ' :: (natChars hm ++ ' ' :: natChars fm)))) := by
    unfold boardToFen
    simp only [String.data_append]
    simp [natToString, List.append_assoc]
  rw [hdata]
  rw [splitSp_append_space _ _ (placementFen_no_space b hb)]
  rw [splitSp_append_space _ _ ht]
  rw [splitSp_append_space _ _ hc]
  rw [splitSp_append_space _ _ he]
  rw [splitSp_append_space _ _ (no_space_of_all _ (natChars_no_space hm))]
  rw [splitSp_no_space _ (no_space_of_all _ (natChars_no_space fm))]
  rfl

/-- C8 — Serialization round-trip: parsing the 6-field string produced by
`boardToFen` (run-length-encoded board, side to move, castling flags,
en-passant field, half-move clock, full-move number) through the
constructor recovers every component of the position, for every
well-formed board and nonempty space-free textual fields (which covers
every legal position: the "none" sentinels are `'-'`, all castling-flag
combinations included) and every full-move number ≥ 1. -/
theorem fen_round_trip (b : Board) (t c e : String) (hm fm : Nat)
    (hb : wfBoard b = true) (ht : fenFieldOk t = true)
    (hc : fenFieldOk c = true) (he : fenFieldOk e = true) (hf : 1 ≤ fm) :
    mkValidator (boardToFen b t c e hm fm) =
      { fen := boardToFen b t c e hm fm, board := b, turn := t,
        castling := c, enPassant := e, halfMoveClock := hm,
        fullMoveNumber := fm } := by
  have hfok : ∀ s : String, fenFieldOk s = true → s ≠ "" ∧ ' ' ∉ s.data := by
    intro s hs
    unfold fenFieldOk at hs
    rw [Bool.and_eq_true] at hs
    obtain ⟨h1, h2⟩ := hs
    refine ⟨by simpa using h1, ?_⟩
    rw [List.all_eq_true] at h2
    intro hmem
    have h3 := h2 ' ' hmem
    simp at h3
  obtain ⟨ht1, ht2⟩ := hfok t ht
  obtain ⟨hc1, hc2⟩ := hfok c hc
  obtain ⟨he1, he2⟩ := hfok e he
  have hsplit := jsSplit_boardToFen b t c e hm fm hb ht2 hc2 he2
  obtain ⟨hblen, hbrows⟩ := wfBoard_spec b hb
  have hboard : parseFen (boardToFen b t c e hm fm) = b := by
    unfold parseFen
    rw [hsplit]
    show (List.foldl fenStep (emptyBoard, 0, 0) (placementFen b).data).1 = b
    rw [show (placementFen b).data =
      joinChar '/' (b.map fun row => rowFen row 0) from rfl]
    rw [foldl_fenStep_board b emptyBoard 0
      (by simp [emptyBoard])
      (fun hnil => by rw [hnil] at hblen; cases hblen)
      (by rw [hblen])
      hbrows
      (fun k _ h2 => by
        rw [show (emptyBoard : Board) =
          List.replicate 8 (List.replicate 8 none) from rfl]
        rw [List.get?_eq_getElem?, List.getElem?_replicate, if_pos h2]
        rfl)]
    rfl
  have hturn : fenField (boardToFen b t c e hm fm) 1 "w" = t := by
    unfold fenField
    rw [hsplit]
    show (if t = "" then "w" else t) = t
    rw [if_neg ht1]
  have hcast : fenField (boardToFen b t c e hm fm) 2 "KQkq" = c := by
    unfold fenField
    rw [hsplit]
    show (if c = "" then "KQkq" else c) = c
    rw [if_neg hc1]
  have hep : fenField (boardToFen b t c e hm fm) 3 "-" = e := by
    unfold fenField
    rw [hsplit]
    show (if e = "" then "-" else e) = e
    rw [if_neg he1]
  have hhalf : fenNumField (boardToFen b t c e hm fm) 4 0 = hm := by
    unfold fenNumField
    rw [hsplit]
    show (match jsParseIntNat (natToString hm) with
      | none => 0
      | some n => if n = 0 then 0 else n) = hm
    rw [jsParseIntNat_natToString]
    by_cases h0 : hm = 0
    · subst h0
      rfl
    · simp [h0]
  have hfull : fenNumField (boardToFen b t c e hm fm) 5 1 = fm := by
    unfold fenNumField
    rw [hsplit]
    show (match jsParseIntNat (natToString fm) with
      | none => 1
      | some n => if n = 0 then 1 else n) = fm
    rw [jsParseIntNat_natToString]
    have h0 : ¬fm = 0 := by omega
    simp [h0]
  unfold mkValidator
  rw [hboard, hturn, hcast, hep, hhalf, hfull]

/-- C8 witness: a concrete position — black rook on a8, white king on h1,
castling field `Qk`, empty en-passant sentinel, clocks 0 and 5 — survives
the serialize/parse round trip componentwise. -/
theorem fen_round_trip_witness :
    mkValidator (boardToFen sampleBoard "white" "Qk" "-" 0 5) =
      { fen := boardToFen sampleBoard "white" "Qk" "-" 0 5,
        board := sampleBoard, turn := "white", castling := "Qk",
        enPassant := "-", halfMoveClock := 0, fullMoveNumber := 5 } :=
  fen_round_trip sampleBoard "white" "Qk" "-" 0 5 (by decide) (by decide)
    (by decide) (by decide) (by decide)
